import Mathlib

/-!
# Rock-paper-scissors matchmaking server: embedding and verification

A shallow embedding of `cmd/server/main.go` and `internal/events/events.go`.

* Go strings stay strings (`Move`, `EventType`, identifiers, results).
* Go maps are association lists.  A `range` loop over `gameSessions` visits the
  entries in the order of the list; Go leaves that order unspecified, so every
  ordering of the same entries is a representation of the same map, theorems
  about one operation quantify over all of them, and the reachability relation
  has a `reorder` step.
* Pointers that the code tests against `nil` are `Option`s.  Dereferencing a
  `nil` pointer is a runtime fault, recorded in the `fault` flag of a `Run`;
  writes made before the fault stay in the state, as they do in Go.
* `sendEvent` calls are recorded, in order, in the `sent` list of a `Run`.
* The registry lock makes each handler atomic, so a handler is a function from
  the state before to the `Run` after.
* The clock reading of `time.Now().UnixNano()` is an argument.
-/

namespace RPS

/-! ## Package `events` -/

/-- events.Move is a string type. -/
abbrev Move := String

def Rock : Move := "rock"
def Paper : Move := "paper"
def Scissors : Move := "scissors"

/-- events.ServerState with its four constants. -/
inductive ServerState where
  | ServerMatchmakingPool
  | ServerGameSession
  | ServerCollectingMoves
  | ServerEvaluatingRound
deriving DecidableEq, Repr

/-- events.EventType is a string type. -/
abbrev EventType := String

def FindPartnerEvent : EventType := "find_partner"
def MoveSubmittedEvent : EventType := "move_submitted"
def PlayAgainEvent : EventType := "play_again"
def LeaveGameEvent : EventType := "leave_game"
def PartnerFoundEvent : EventType := "partner_found"
def StartGameEvent : EventType := "start_game"
def BothMovesReceivedEvent : EventType := "both_moves_received"
def GameResultsEvent : EventType := "game_results"

/-- The `Data interface{}` field of an event: absent, one of the three payload
structs of the package, or any other JSON value. -/
inductive Payload where
  | absent
  | moveData (move : Move)
  | partnerFound (gameID : String)
  | gameResults (yourMove opponentMove : Move) (result : String)
  | other
deriving DecidableEq, Repr

/-- events.Event. -/
structure Event where
  Typ : EventType
  Data : Payload
deriving DecidableEq, Repr

/-- The marshal / unmarshal pair of `handleMoveSubmitted` (lines 161-163): the
payload is decoded into a `MoveData`, whose `Move` keeps the zero value `""`
when the payload carries no string field `move`.  Errors are discarded. -/
def decodeMoveData : Payload → Move
  | .moveData move => move
  | _ => ""

/-! ## Package `main` of the server: data -/

/-- Player: identifier, connection handle, and the (unused) `Move` field. -/
structure Player where
  ID : String
  Conn : Nat
  Move : RPS.Move
deriving DecidableEq, Repr

/-- GameSession.  `Player1` and `Player2` are pointers the code tests against
`nil`; `Moves` is a map from player identifier to move. -/
structure GameSession where
  ID : String
  State : ServerState
  Player1 : Option Player
  Player2 : Option Player
  Moves : List (String × Move)
deriving DecidableEq, Repr

/-- Server, without its lock. -/
structure Server where
  waitingPlayer : Option Player
  gameSessions : List (String × GameSession)
  players : List (String × Player)
deriving DecidableEq, Repr

/-- NewServer: no waiting player and two empty maps. -/
def NewServer : Server :=
  { waitingPlayer := none, gameSessions := [], players := [] }

/-! ## Go map operations on association lists -/

/-- Map assignment `m[k] = v`: replaces the value of an existing key, otherwise
adds the entry. -/
def mapSet {β : Type} : List (String × β) → String → β → List (String × β)
  | [], k, v => [(k, v)]
  | (k', v') :: rest, k, v =>
    if k' = k then (k, v) :: rest else (k', v') :: mapSet rest k v

/-- Map read `m[k]`, with the zero value of the element type for a missing key. -/
def mapGet {β : Type} (zero : β) (m : List (String × β)) (k : String) : β :=
  match m.find? (fun kv => decide (kv.1 = k)) with
  | some kv => kv.2
  | none => zero

/-- Builtin `delete(m, k)`. -/
def mapDelete {β : Type} (m : List (String × β)) (k : String) : List (String × β) :=
  m.filter (fun kv => !decide (kv.1 = k))

/-- Whether a key is bound in the map. -/
def mapHas {β : Type} (m : List (String × β)) (k : String) : Bool :=
  m.any (fun kv => decide (kv.1 = k))

/-! ## Results of running a handler -/

/-- What a handler leaves behind: the registry state, the `sendEvent` calls it
made in order, and whether it ended in a runtime fault instead of returning. -/
structure Run where
  server : Server
  sent : List (Player × Event)
  fault : Bool
deriving DecidableEq, Repr

/-- What `evaluateRound` leaves behind for the session it was given. -/
structure RoundRun where
  game : GameSession
  sent : List (Player × Event)
  fault : Bool
deriving DecidableEq, Repr

/-! ## Handlers -/

/-- The membership test of the three `range` loops:
`(g.Player1 != nil && g.Player1.ID == id) || (g.Player2 != nil && g.Player2.ID == id)`. -/
def inGame (g : GameSession) (id : String) : Bool :=
  (match g.Player1 with
   | some p => decide (p.ID = id)
   | none => false) ||
  (match g.Player2 with
   | some p => decide (p.ID = id)
   | none => false)

/-- The `range` loop with `break` of the handlers: the first entry, in
iteration order, whose session has the player as a member. -/
def findGame (sessions : List (String × GameSession)) (id : String) :
    Option (String × GameSession) :=
  sessions.find? (fun kv => inGame kv.2 id)

/-- Writes through the `*GameSession` found by `findGame`: the session of the
first entry that has the player as a member becomes `g`. -/
def storeGame (sessions : List (String × GameSession)) (id : String) (g : GameSession) :
    List (String × GameSession) :=
  match sessions with
  | [] => []
  | kv :: rest =>
    if inGame kv.2 id then (kv.1, g) :: rest else kv :: storeGame rest id g

/-- Server.determineResult (lines 208-228). -/
def determineResult (playerMove opponentMove : Move) : String :=
  if playerMove = opponentMove then "tie"
  else if playerMove = Rock then
    (if opponentMove = Scissors then "win" else "lose")
  else if playerMove = Paper then
    (if opponentMove = Rock then "win" else "lose")
  else if playerMove = Scissors then
    (if opponentMove = Paper then "win" else "lose")
  else "lose"

/-- The session identifier `fmt.Sprintf("game_%d", now)` of a clock reading. -/
def gameIDOf (now : Int) : String := "game_" ++ toString now

/-- Server.handleFindPartner (lines 98-139).  `now` is the clock reading used
for the session identifier.  The last statement of the pairing branch reads
`s.waitingPlayer.ID` after `s.waitingPlayer` has been set to `nil`. -/
def handleFindPartner (s : Server) (player : Player) (now : Int) : Run :=
  match s.waitingPlayer with
  | none =>
    { server := { s with waitingPlayer := some player }, sent := [], fault := false }
  | some waiting =>
    let gameID := gameIDOf now
    let game : GameSession :=
      { ID := gameID, State := ServerState.ServerGameSession,
        Player1 := some waiting, Player2 := some player, Moves := [] }
    let partnerData := Payload.partnerFound gameID
    let sent : List (Player × Event) :=
      [(waiting, { Typ := PartnerFoundEvent, Data := partnerData }),
       (player, { Typ := PartnerFoundEvent, Data := partnerData }),
       (waiting, { Typ := StartGameEvent, Data := Payload.absent }),
       (player, { Typ := StartGameEvent, Data := Payload.absent })]
    let s1 : Server :=
      { s with
        gameSessions :=
          mapSet s.gameSessions gameID { game with State := ServerState.ServerCollectingMoves },
        waitingPlayer := none }
    match s1.waitingPlayer with
    | none => { server := s1, sent := sent, fault := true }
    | some _ => { server := s1, sent := sent, fault := false }

/-- Server.evaluateRound (lines 175-206) on the session it is given. -/
def evaluateRound (game : GameSession) : RoundRun :=
  match game.Player1 with
  | none => { game := game, sent := [], fault := true }
  | some p1 =>
    let player1Move := mapGet "" game.Moves p1.ID
    match game.Player2 with
    | none => { game := game, sent := [], fault := true }
    | some p2 =>
      let player2Move := mapGet "" game.Moves p2.ID
      let result1 := determineResult player1Move player2Move
      let result2 := determineResult player2Move player1Move
      { game := { game with Moves := [], State := ServerState.ServerGameSession },
        sent :=
          [(p1, { Typ := GameResultsEvent,
                  Data := Payload.gameResults player1Move player2Move result1 }),
           (p2, { Typ := GameResultsEvent,
                  Data := Payload.gameResults player2Move player1Move result2 })],
        fault := false }

/-- Server.handleMoveSubmitted (lines 141-173). -/
def handleMoveSubmitted (s : Server) (player : Player) (event : Event) : Run :=
  match findGame s.gameSessions player.ID with
  | none => { server := s, sent := [], fault := false }
  | some (_, game) =>
    let moveData := decodeMoveData event.Data
    let game1 : GameSession := { game with Moves := mapSet game.Moves player.ID moveData }
    if game1.Moves.length = 2 then
      let r := evaluateRound { game1 with State := ServerState.ServerEvaluatingRound }
      { server := { s with gameSessions := storeGame s.gameSessions player.ID r.game },
        sent := r.sent, fault := r.fault }
    else
      { server := { s with gameSessions := storeGame s.gameSessions player.ID game1 },
        sent := [], fault := false }

/-- Server.handlePlayAgain (lines 230-244). -/
def handlePlayAgain (s : Server) (player : Player) : Run :=
  match findGame s.gameSessions player.ID with
  | none => { server := s, sent := [], fault := false }
  | some (_, game) =>
    let s1 : Server :=
      { s with
        gameSessions :=
          storeGame s.gameSessions player.ID
            { game with State := ServerState.ServerCollectingMoves } }
    let start : Event := { Typ := StartGameEvent, Data := Payload.absent }
    match game.Player1 with
    | none => { server := s1, sent := [], fault := true }
    | some p1 =>
      match game.Player2 with
      | none => { server := s1, sent := [(p1, start)], fault := true }
      | some p2 => { server := s1, sent := [(p1, start), (p2, start)], fault := false }

/-- Server.handleLeaveGame (lines 246-263). -/
def handleLeaveGame (s : Server) (player : Player) : Run :=
  let sessions :=
    match findGame s.gameSessions player.ID with
    | none => s.gameSessions
    | some (gameID, _) => mapDelete s.gameSessions gameID
  let waiting :=
    match s.waitingPlayer with
    | none => none
    | some w => if w.ID = player.ID then none else some w
  { server := { s with gameSessions := sessions, waitingPlayer := waiting },
    sent := [], fault := false }

/-- Server.handleEvent (lines 85-96): dispatch on the event type; any other
type is ignored. -/
def handleEvent (s : Server) (player : Player) (event : Event) (now : Int) : Run :=
  if event.Typ = FindPartnerEvent then handleFindPartner s player now
  else if event.Typ = MoveSubmittedEvent then handleMoveSubmitted s player event
  else if event.Typ = PlayAgainEvent then handlePlayAgain s player
  else if event.Typ = LeaveGameEvent then handleLeaveGame s player
  else { server := s, sent := [], fault := false }

/-- The registration at the start of Server.handleConnection (lines 57-65): a
player named after the clock reading is entered in the player map. -/
def connect (s : Server) (conn : Nat) (now : Int) : Server × Player :=
  let playerID := "player_" ++ toString now
  let player : Player := { ID := playerID, Conn := conn, Move := "" }
  ({ s with players := mapSet s.players playerID player }, player)

/-- The code of Server.handleConnection after its read loop (lines 80-82). -/
def disconnect (s : Server) (playerID : String) : Server :=
  { s with players := mapDelete s.players playerID }

/-! ## Registry operations and reachable states -/

/-- One call of a registry operation by a participant. -/
inductive Op where
  | findPartner (player : Player) (now : Int)
  | moveSubmitted (player : Player) (event : Event)
  | playAgain (player : Player)
  | leaveGame (player : Player)
deriving DecidableEq, Repr

/-- Runs one registry operation. -/
def Op.run (s : Server) : Op → Run
  | .findPartner player now => handleFindPartner s player now
  | .moveSubmitted player event => handleMoveSubmitted s player event
  | .playAgain player => handlePlayAgain s player
  | .leaveGame player => handleLeaveGame s player

/-- Runs a sequence of registry operations from a state; a fault ends the
operation it occurs in, not the server, so the next operation starts from the
state the faulting one left. -/
def runOps (s : Server) : List Op → Server
  | [] => s
  | op :: ops => runOps (op.run s).server ops

/-- States reachable from the empty registry when every operation call has to
satisfy `ok` in the state it is made in.  Connections may come and go, and the
session map may present its entries in any order. -/
inductive ReachableVia (ok : Server → Op → Prop) : Server → Prop where
  | init : ReachableVia ok NewServer
  | step {s : Server} (op : Op) : ReachableVia ok s → ok s op →
      ReachableVia ok (op.run s).server
  | reorder {s : Server} (l : List (String × GameSession)) : ReachableVia ok s →
      l.Perm s.gameSessions → ReachableVia ok { s with gameSessions := l }
  | connect {s : Server} (conn : Nat) (now : Int) : ReachableVia ok s →
      ReachableVia ok (connect s conn now).1
  | disconnect {s : Server} (playerID : String) : ReachableVia ok s →
      ReachableVia ok (disconnect s playerID)

/-- States reachable from the empty registry by any sequence of operations. -/
def Reachable : Server → Prop := ReachableVia (fun _ _ => True)

/-- The three choices of the game. -/
def choices : List Move := [Rock, Paper, Scissors]

/-- The event `move_submitted` carrying a move. -/
def moveEvent (m : Move) : Event := { Typ := MoveSubmittedEvent, Data := Payload.moveData m }

/-- The event `start_game`. -/
def startEvent : Event := { Typ := StartGameEvent, Data := Payload.absent }

/-- The event `partner_found` carrying a session identifier. -/
def partnerEvent (gameID : String) : Event :=
  { Typ := PartnerFoundEvent, Data := Payload.partnerFound gameID }

/-- The event `game_results` for one side of a round. -/
def resultsEvent (yourMove opponentMove : Move) : Event :=
  { Typ := GameResultsEvent,
    Data := Payload.gameResults yourMove opponentMove (determineResult yourMove opponentMove) }

/-- The session `handleFindPartner` registers for a waiting and an arriving player. -/
def pairedGame (waiting player : Player) (now : Int) : GameSession :=
  { ID := gameIDOf now, State := ServerState.ServerCollectingMoves,
    Player1 := some waiting, Player2 := some player, Moves := [] }

/-! ## Concrete participants and scenarios -/

def alice : Player := { ID := "player_1", Conn := 1, Move := "" }
def bob : Player := { ID := "player_2", Conn := 2, Move := "" }
def carol : Player := { ID := "player_3", Conn := 3, Move := "" }

/-- The registry after alice asked for a partner: alice waits. -/
def aliceWaiting : Server := (handleFindPartner NewServer alice 10).server


/-- The entries of a session map that have `A` or `B` as a member. -/
def gamesOf (l : List (String × GameSession)) (A B : Player) : List (String × GameSession) :=
  l.filter (fun e => inGame e.2 A.ID || inGame e.2 B.ID)

/-- The same registry with the session map presenting its entries in the order `l`. -/
def reordered (s : Server) (l : List (String × GameSession)) : Server :=
  { s with gameSessions := l }

/-- A session of alice and bob in which nobody has moved. -/
def freshGame : GameSession := pairedGame alice bob 20

/-- The registry in which alice and bob are paired in `game_20`. -/
def alicePlaysBob : Server := (handleFindPartner aliceWaiting bob 20).server

/-- The registry after alice, paired with bob in `game_20`, asked for a partner
again and was paired with carol in `game_40`. -/
def aliceInTwoGames : Server :=
  runOps NewServer
    [Op.findPartner alice 10, Op.findPartner bob 20, Op.findPartner alice 30,
     Op.findPartner carol 40]

/-- The registry `aliceInTwoGames` when the session map presents `game_40` first. -/
def aliceInTwoGamesSwapped : Server :=
  reordered aliceInTwoGames aliceInTwoGames.gameSessions.reverse

/-- The registry after alice asked for a partner twice in a row. -/
def aliceWithHerself : Server :=
  runOps NewServer [Op.findPartner alice 10, Op.findPartner alice 20]

/-- The registry in which alice, paired with bob, has submitted rock. -/
def aliceChoseRock : Server := (handleMoveSubmitted alicePlaysBob alice (moveEvent Rock)).server

/-! ## Invariants and the conditions on callers they need -/

/-- The number of sessions in the map that have the identifier as a member. -/
def memberCount (l : List (String × GameSession)) (id : String) : Nat :=
  (l.filter (fun e => inGame e.2 id)).length

/-- Both member references are set and carry different identifiers. -/
def distinctMembers (g : GameSession) : Prop :=
  match g.Player1, g.Player2 with
  | some p1, some p2 => p1.ID ≠ p2.ID
  | _, _ => False

/-- Both member references are set. -/
def bothPresent (g : GameSession) : Prop :=
  match g.Player1, g.Player2 with
  | some _, some _ => True
  | _, _ => False

/-- The operation is a `handleFindPartner` call. -/
def isFind : Op → Prop
  | .findPartner _ _ => True
  | _ => False

/-- A `handleFindPartner` call is made by a participant in no live session. -/
def callerFree (s : Server) : Op → Prop
  | .findPartner p _ => memberCount s.gameSessions p.ID = 0
  | _ => True

/-- A `handleFindPartner` call is not made under the identifier of the
participant in the waiting slot. -/
def callerNotWaiting (s : Server) : Op → Prop
  | .findPartner p _ =>
    match s.waitingPlayer with
    | some w => w.ID ≠ p.ID
    | none => True
  | _ => True

/-- Two session maps with the same keys and the same members, entry by entry. -/
def sameMembers (l' l : List (String × GameSession)) : Prop :=
  List.Forall₂
    (fun e' e => e'.1 = e.1 ∧ e'.2.Player1 = e.2.Player1 ∧ e'.2.Player2 = e.2.Player2) l' l

/-- The registry after alice, paired with bob, asked for a partner again. -/
def aliceWaitingAgain : Server :=
  runOps NewServer [Op.findPartner alice 10, Op.findPartner bob 20, Op.findPartner alice 30]

/-- The registry after alice and bob were paired and carol asked for a partner. -/
def carolWaiting : Server :=
  runOps NewServer [Op.findPartner alice 10, Op.findPartner bob 20, Op.findPartner carol 30]

/-- The move mapping of a session between operations: at most one entry, keyed
by the identifier of a member. -/
def movesOK (g : GameSession) : Prop :=
  g.Moves.length ≤ 1 ∧ ∀ kv ∈ g.Moves, inGame g kv.1 = true

/-- The registry in which alice and bob have played one round, rock against scissors. -/
def roundPlayed : Server :=
  (handleMoveSubmitted aliceChoseRock bob (moveEvent Scissors)).server

/-- The registry after the connection that gets the identifier `player_1` was
registered: its player is alice. -/
def aliceConnected : Server := (connect NewServer 1 1).1

/-- The registry in which the connected alice waits for a partner. -/
def aliceConnectedWaiting : Server := (handleFindPartner aliceConnected alice 10).server

/-- An event `move_submitted` without payload. -/
def emptyMoveEvent : Event := { Typ := MoveSubmittedEvent, Data := Payload.absent }

/-- The registry after alice and bob played a round in `game_20` and alice was
then paired with carol in `game_40`, when the session map presents `game_40`
first. -/
def aliceRejoined : Server :=
  reordered
    (runOps roundPlayed [Op.findPartner alice 30, Op.findPartner carol 40])
    (runOps roundPlayed [Op.findPartner alice 30, Op.findPartner carol 40]).gameSessions.reverse

/-- The session `game_20` of alice and bob after a resolved round. -/
def restingGame : GameSession := { freshGame with State := ServerState.ServerGameSession }

/-- A session with its `State` field blanked. -/
def eraseState (g : GameSession) : GameSession :=
  { g with State := ServerState.ServerMatchmakingPool }

/-- A registry with the `State` field of every session blanked. -/
def eraseStates (s : Server) : Server :=
  { s with gameSessions := s.gameSessions.map (fun e => (e.1, eraseState e.2)) }

/-- A fourth participant. -/
def dave : Player := { ID := "player_4", Conn := 4, Move := "" }

/-- The numeric value of a decimal digit character. -/
def digitValue (c : Char) : Nat := c.toNat - 48

/-- The number that a list of decimal digit characters denotes after a prefix
of value `acc`. -/
def decimalValue (acc : Nat) (cs : List Char) : Nat :=
  cs.foldl (fun a c => a * 10 + digitValue c) acc

/-! ## Round resolver -/

theorem determineResult_ne_tie {a b : Move} (h : a ≠ b) : determineResult a b ≠ "tie" := by
  unfold determineResult
  rw [if_neg h]
  split_ifs <;> decide

theorem mem_choices {m : Move} (h : m ∈ choices) : m = Rock ∨ m = Paper ∨ m = Scissors := by
  simpa [choices] using h

/-- C4. For distinct choices `mine`, `theirs` among rock, paper, scissors,
`determineResult mine theirs` is "win" exactly for the pairs (rock, scissors),
(paper, rock), (scissors, paper) and "lose" for every other pair; each choice
wins against exactly one other choice and loses against exactly one other. -/
theorem determineResult_dominance (mine theirs : Move) (hm : mine ∈ choices)
    (ht : theirs ∈ choices) (hne : mine ≠ theirs) :
    (determineResult mine theirs = "win" ↔
      (mine, theirs) ∈ [(Rock, Scissors), (Paper, Rock), (Scissors, Paper)]) ∧
    ((mine, theirs) ∉ [(Rock, Scissors), (Paper, Rock), (Scissors, Paper)] →
      determineResult mine theirs = "lose") ∧
    (∃! other, other ∈ choices ∧ other ≠ mine ∧ determineResult mine other = "win") ∧
    (∃! other, other ∈ choices ∧ other ≠ mine ∧ determineResult mine other = "lose") := by
  refine ⟨?_, ?_, ?_, ?_⟩
  · rcases mem_choices hm with rfl | rfl | rfl <;> rcases mem_choices ht with rfl | rfl | rfl <;>
      first
        | exact absurd rfl hne
        | decide
  · rcases mem_choices hm with rfl | rfl | rfl <;> rcases mem_choices ht with rfl | rfl | rfl <;>
      first
        | exact absurd rfl hne
        | decide
  · rcases mem_choices hm with rfl | rfl | rfl
    · refine ⟨Scissors, by decide, ?_⟩
      rintro y ⟨hy, -, hw⟩
      rcases mem_choices hy with rfl | rfl | rfl <;> first | rfl | exact absurd hw (by decide)
    · refine ⟨Rock, by decide, ?_⟩
      rintro y ⟨hy, -, hw⟩
      rcases mem_choices hy with rfl | rfl | rfl <;> first | rfl | exact absurd hw (by decide)
    · refine ⟨Paper, by decide, ?_⟩
      rintro y ⟨hy, -, hw⟩
      rcases mem_choices hy with rfl | rfl | rfl <;> first | rfl | exact absurd hw (by decide)
  · rcases mem_choices hm with rfl | rfl | rfl
    · refine ⟨Paper, by decide, ?_⟩
      rintro y ⟨hy, hn, hw⟩
      rcases mem_choices hy with rfl | rfl | rfl <;>
        first | rfl | exact absurd rfl hn | exact absurd hw (by decide)
    · refine ⟨Scissors, by decide, ?_⟩
      rintro y ⟨hy, hn, hw⟩
      rcases mem_choices hy with rfl | rfl | rfl <;>
        first | rfl | exact absurd rfl hn | exact absurd hw (by decide)
    · refine ⟨Rock, by decide, ?_⟩
      rintro y ⟨hy, hn, hw⟩
      rcases mem_choices hy with rfl | rfl | rfl <;>
        first | rfl | exact absurd rfl hn | exact absurd hw (by decide)

/-- C4 at rock against scissors: the pair is a winning one. -/
theorem determineResult_dominance_witness :
    Rock ∈ choices ∧ Scissors ∈ choices ∧ Rock ≠ Scissors ∧
    determineResult Rock Scissors = "win" :=
  ⟨by decide, by decide, by decide,
    (determineResult_dominance Rock Scissors (by decide) (by decide) (by decide)).1.2
      (by decide)⟩

/-- C5. For all move values `a`, `b` (arbitrary strings), `determineResult a b`
is "tie" if and only if `a = b`. -/
theorem determineResult_tie_iff (a b : Move) : determineResult a b = "tie" ↔ a = b := by
  constructor
  · intro h
    by_contra hne
    exact determineResult_ne_tie hne h
  · intro h
    simp [determineResult, h]

/-- C6. For distinct choices `a`, `b` among rock, paper, scissors, one side wins
exactly when the other loses: swapping the arguments of `determineResult`
exchanges "win" and "lose", so the two sides are never both "win" and never
both "lose". -/
theorem determineResult_complement (a b : Move) (ha : a ∈ choices) (hb : b ∈ choices)
    (hne : a ≠ b) :
    (determineResult a b = "win" ↔ determineResult b a = "lose") ∧
    (determineResult a b = "lose" ↔ determineResult b a = "win") ∧
    ¬ (determineResult a b = "win" ∧ determineResult b a = "win") ∧
    ¬ (determineResult a b = "lose" ∧ determineResult b a = "lose") := by
  rcases mem_choices ha with rfl | rfl | rfl <;> rcases mem_choices hb with rfl | rfl | rfl <;>
    first
      | exact absurd rfl hne
      | decide

/-- C6 at paper against rock: paper wins and rock loses. -/
theorem determineResult_complement_witness :
    Paper ∈ choices ∧ Rock ∈ choices ∧ Paper ≠ Rock ∧
    determineResult Paper Rock = "win" ∧ determineResult Rock Paper = "lose" :=
  ⟨by decide, by decide, by decide, by decide,
    (determineResult_complement Paper Rock (by decide) (by decide) (by decide)).1.1
      (by decide)⟩

/-! ## Association lists -/

theorem mem_mapSet {β : Type} {m : List (String × β)} {k : String} {v : β} {e : String × β}
    (h : e ∈ mapSet m k v) : e = (k, v) ∨ e ∈ m := by
  induction m with
  | nil => simpa [mapSet] using h
  | cons hd tl ih =>
    obtain ⟨k', v'⟩ := hd
    unfold mapSet at h
    split_ifs at h with hk
    · rcases List.mem_cons.1 h with h | h
      · exact Or.inl h
      · exact Or.inr (List.mem_cons_of_mem _ h)
    · rcases List.mem_cons.1 h with h | h
      · exact Or.inr (h ▸ List.mem_cons_self _ _)
      · rcases ih h with h | h
        · exact Or.inl h
        · exact Or.inr (List.mem_cons_of_mem _ h)

theorem mapSet_mem {β : Type} (m : List (String × β)) (k : String) (v : β) :
    (k, v) ∈ mapSet m k v := by
  induction m with
  | nil => simp [mapSet]
  | cons hd tl ih =>
    obtain ⟨k', v'⟩ := hd
    unfold mapSet
    split_ifs with hk
    · exact List.mem_cons_self _ _
    · exact List.mem_cons_of_mem _ ih

theorem mapDelete_mapSet {β : Type} (m : List (String × β)) (k : String) (v : β) :
    mapDelete (mapSet m k v) k = mapDelete m k := by
  induction m with
  | nil => simp [mapSet, mapDelete]
  | cons hd tl ih =>
    obtain ⟨k', v'⟩ := hd
    unfold mapSet
    split_ifs with hk
    · simp [mapDelete, hk]
    · simp only [mapDelete] at ih
      simp [mapDelete, hk, ih]

theorem mapSet_of_fresh {β : Type} (m : List (String × β)) (k : String) (v : β)
    (h : mapHas m k = false) : mapSet m k v = m ++ [(k, v)] := by
  induction m with
  | nil => simp [mapSet]
  | cons hd tl ih =>
    obtain ⟨k', v'⟩ := hd
    simp only [mapHas, List.any_cons, Bool.or_eq_false_iff, decide_eq_false_iff_not] at h
    unfold mapSet
    rw [if_neg h.1]
    simp only [mapHas] at ih
    simp [ih h.2]

/-! ## Session identifiers -/

theorem digitValue_digitChar (k : Nat) (h : k < 10) : digitValue (Nat.digitChar k) = k := by
  interval_cases k <;> rfl

theorem digitChar_ne_minus (k : Nat) (h : k < 10) : Nat.digitChar k ≠ '-' := by
  interval_cases k <;> decide

theorem decimalValue_toDigitsCore (fuel : Nat) :
    ∀ (n : Nat) (ds : List Char), n < fuel →
      decimalValue 0 (Nat.toDigitsCore 10 fuel n ds) = decimalValue n ds := by
  induction fuel with
  | zero => intro n ds h; omega
  | succ fuel ih =>
    intro n ds h
    have hd : digitValue (Nat.digitChar (n % 10)) = n % 10 :=
      digitValue_digitChar _ (Nat.mod_lt _ (by decide))
    unfold Nat.toDigitsCore
    simp only
    split_ifs with h0
    · have hn : n % 10 = n := Nat.mod_eq_of_lt (by omega)
      rw [hn] at hd
      simp [decimalValue, hd, hn]
    · have hlt : n / 10 < fuel := by omega
      rw [ih (n / 10) _ hlt]
      have : n / 10 * 10 + n % 10 = n := by omega
      simp [decimalValue, hd, this]

theorem toDigitsCore_no_minus (fuel : Nat) :
    ∀ (n : Nat) (ds : List Char), (∀ c ∈ ds, c ≠ '-') →
      ∀ c ∈ Nat.toDigitsCore 10 fuel n ds, c ≠ '-' := by
  induction fuel with
  | zero =>
    intro n ds h c hc
    exact h c hc
  | succ fuel ih =>
    intro n ds h
    have hd : Nat.digitChar (n % 10) ≠ '-' := digitChar_ne_minus _ (Nat.mod_lt _ (by decide))
    have hds : ∀ c ∈ Nat.digitChar (n % 10) :: ds, c ≠ '-' := by
      intro c hc
      rcases List.mem_cons.1 hc with rfl | hc
      · exact hd
      · exact h c hc
    unfold Nat.toDigitsCore
    simp only
    split_ifs with h0
    · exact hds
    · exact ih _ _ hds

theorem natRepr_injective {m n : Nat} (h : Nat.repr m = Nat.repr n) : m = n := by
  have hd : Nat.toDigits 10 m = Nat.toDigits 10 n := by
    have := congrArg String.data h
    simpa [Nat.repr, List.asString] using this
  have hm := decimalValue_toDigitsCore (m + 1) m [] (Nat.lt_succ_self m)
  have hn := decimalValue_toDigitsCore (n + 1) n [] (Nat.lt_succ_self n)
  unfold Nat.toDigits at hd
  rw [hd, hn] at hm
  simpa [decimalValue] using hm.symm

theorem natRepr_no_minus (n : Nat) : ∀ c ∈ (Nat.repr n).data, c ≠ '-' := by
  intro c hc
  have hc' : c ∈ Nat.toDigits 10 n := by simpa [Nat.repr, List.asString] using hc
  exact toDigitsCore_no_minus (n + 1) n [] (fun c hc => by cases hc) c hc'

theorem intToString_injective {a b : Int} (h : toString a = toString b) : a = b := by
  cases a with
  | ofNat m =>
    cases b with
    | ofNat n =>
      have : Nat.repr m = Nat.repr n := h
      rw [natRepr_injective this]
    | negSucc n =>
      exfalso
      have h' : Nat.repr m = "-" ++ Nat.repr (n + 1) := h
      have hmem : '-' ∈ (Nat.repr m).data := by
        rw [h']
        simp
      exact natRepr_no_minus m '-' hmem rfl
  | negSucc m =>
    cases b with
    | ofNat n =>
      exfalso
      have h' : "-" ++ Nat.repr (m + 1) = Nat.repr n := h
      have hmem : '-' ∈ (Nat.repr n).data := by
        rw [← h']
        simp
      exact natRepr_no_minus n '-' hmem rfl
    | negSucc n =>
      have h' : "-" ++ Nat.repr (m + 1) = "-" ++ Nat.repr (n + 1) := h
      have hd := congrArg String.data h'
      simp only [String.data_append, List.append_cancel_left_eq] at hd
      have hr : Nat.repr (m + 1) = Nat.repr (n + 1) := String.ext hd
      have := natRepr_injective hr
      have hmn : m = n := by omega
      rw [hmn]

theorem gameIDOf_injective {a b : Int} (h : gameIDOf a = gameIDOf b) : a = b := by
  unfold gameIDOf at h
  have hd := congrArg String.data h
  simp only [String.data_append, List.append_cancel_left_eq] at hd
  exact intToString_injective (String.ext hd)

theorem length_mapSet_of_has {β : Type} (m : List (String × β)) (k : String) (v : β)
    (h : mapHas m k = true) : (mapSet m k v).length = m.length := by
  induction m with
  | nil => simp [mapHas] at h
  | cons hd tl ih =>
    obtain ⟨k', v'⟩ := hd
    unfold mapSet
    by_cases hk : k' = k
    · rw [if_pos hk]
      rfl
    · rw [if_neg hk]
      have h' : mapHas tl k = true := by
        simpa [mapHas, hk] using h
      simp [ih h']

theorem reachable_runOps (s : Server) (ops : List Op) (h : Reachable s) :
    Reachable (runOps s ops) := by
  induction ops generalizing s with
  | nil => exact h
  | cons op ops ih => exact ih _ (ReachableVia.step op h trivial)

/-! ## Pairing -/

theorem handleFindPartner_of_waiting (s : Server) (W P : Player) (now : Int)
    (hW : s.waitingPlayer = some W) :
    handleFindPartner s P now =
      { server := { s with
          gameSessions := mapSet s.gameSessions (gameIDOf now) (pairedGame W P now),
          waitingPlayer := none },
        sent := [(W, partnerEvent (gameIDOf now)), (P, partnerEvent (gameIDOf now)),
                 (W, startEvent), (P, startEvent)],
        fault := true } := by
  simp [handleFindPartner, hW, pairedGame, partnerEvent, startEvent]

theorem handleFindPartner_of_empty (s : Server) (P : Player) (now : Int)
    (hW : s.waitingPlayer = none) :
    handleFindPartner s P now =
      { server := { s with waitingPlayer := some P }, sent := [], fault := false } := by
  simp [handleFindPartner, hW]

/-- C1 (amended). When the waiting slot holds `W`, `handleFindPartner` for an
arriving `P` at clock reading `now` empties the waiting slot and binds the
identifier `game_<now>` to a new session with members `W` and `P` and an empty
move mapping; every session bound to another identifier is as before.  When
the identifier was not bound yet, exactly that one session is added (and
different clock readings give different identifiers); when it was bound, the
session bound to it is replaced and the session set keeps its size.  The sends
are `partner_found` with that identifier to `W` and to `P`, then `start_game`
to `W` and to `P`. -/
theorem handleFindPartner_pairs (s : Server) (W P : Player) (now : Int)
    (hW : s.waitingPlayer = some W) :
    (handleFindPartner s P now).server.waitingPlayer = none ∧
    (pairedGame W P now).Player1 = some W ∧ (pairedGame W P now).Player2 = some P ∧
    (pairedGame W P now).Moves = [] ∧ (pairedGame W P now).ID = gameIDOf now ∧
    gameIDOf now = "game_" ++ toString now ∧
    (∀ now', gameIDOf now' = gameIDOf now → now' = now) ∧
    (gameIDOf now, pairedGame W P now) ∈ (handleFindPartner s P now).server.gameSessions ∧
    (handleFindPartner s P now).server.gameSessions =
      mapSet s.gameSessions (gameIDOf now) (pairedGame W P now) ∧
    mapDelete (handleFindPartner s P now).server.gameSessions (gameIDOf now) =
      mapDelete s.gameSessions (gameIDOf now) ∧
    (mapHas s.gameSessions (gameIDOf now) = false →
      (handleFindPartner s P now).server.gameSessions =
        s.gameSessions ++ [(gameIDOf now, pairedGame W P now)]) ∧
    (mapHas s.gameSessions (gameIDOf now) = true →
      (handleFindPartner s P now).server.gameSessions.length = s.gameSessions.length) ∧
    (handleFindPartner s P now).sent =
      [(W, partnerEvent (gameIDOf now)), (P, partnerEvent (gameIDOf now)),
       (W, startEvent), (P, startEvent)] := by
  rw [handleFindPartner_of_waiting s W P now hW]
  refine ⟨rfl, rfl, rfl, rfl, rfl, rfl, fun _ h => gameIDOf_injective h, mapSet_mem _ _ _, rfl,
    mapDelete_mapSet _ _ _, ?_, ?_, rfl⟩
  · intro h
    exact mapSet_of_fresh _ _ _ h
  · intro h
    exact length_mapSet_of_has _ _ _ h

/-- C1 with alice waiting and bob arriving at clock reading 20: `game_20` is
added; a reading other than 20 would give another identifier. -/
theorem handleFindPartner_pairs_witness :
    aliceWaiting.waitingPlayer = some alice ∧
    (handleFindPartner aliceWaiting bob 20).server.waitingPlayer = none ∧
    (handleFindPartner aliceWaiting bob 20).server.gameSessions =
      [("game_20", pairedGame alice bob 20)] ∧
    (handleFindPartner aliceWaiting bob 20).sent =
      [(alice, partnerEvent "game_20"), (bob, partnerEvent "game_20"),
       (alice, startEvent), (bob, startEvent)] ∧
    (∀ now', gameIDOf now' = gameIDOf 20 → now' = 20) :=
  ⟨by decide, (handleFindPartner_pairs aliceWaiting alice bob 20 (by decide)).1,
   by decide, by decide,
   (handleFindPartner_pairs aliceWaiting alice bob 20 (by decide)).2.2.2.2.2.2.1⟩

/-- C1 as stated fails. With alice and bob paired in `game_20` and carol
waiting, `handleFindPartner` for dave at clock reading 20 again adds no
session: it rebinds `game_20` to the session of carol and dave, the session of
alice and bob is gone, and the session set still has one entry. -/
theorem pairing_replaces_on_collision :
    Reachable carolWaiting ∧ carolWaiting.waitingPlayer = some carol ∧
    carolWaiting.gameSessions = [("game_20", pairedGame alice bob 20)] ∧
    (handleFindPartner carolWaiting dave 20).server.gameSessions =
      [("game_20", pairedGame carol dave 20)] ∧
    (handleFindPartner carolWaiting dave 20).server.gameSessions.length =
      carolWaiting.gameSessions.length ∧
    ("game_20", pairedGame alice bob 20) ∉
      (handleFindPartner carolWaiting dave 20).server.gameSessions := by
  refine ⟨reachable_runOps _ _ ReachableVia.init, by decide, by decide, by decide, by decide,
    by decide⟩

/-- C2. With alice waiting (a state reached by her own `find_partner`),
`handleFindPartner` for bob ends in a runtime fault: after the waiting slot has
been cleared the code reads the identifier of the waiting player through the
now nil reference. -/
theorem handleFindPartner_faults_when_pairing :
    Reachable aliceWaiting ∧ aliceWaiting.waitingPlayer = some alice ∧
    (handleFindPartner aliceWaiting bob 20).fault = true ∧
    (handleFindPartner aliceWaiting bob 20).server.waitingPlayer = none := by
  refine ⟨?_, by decide, by decide, by decide⟩
  exact ReachableVia.step (Op.findPartner alice 10) ReachableVia.init trivial


/-! ## Submitting moves -/

theorem evaluateRound_of_members (g : GameSession) (p1 p2 : Player)
    (h1 : g.Player1 = some p1) (h2 : g.Player2 = some p2) :
    evaluateRound g =
      { game := { g with Moves := [], State := ServerState.ServerGameSession },
        sent := [(p1, resultsEvent (mapGet "" g.Moves p1.ID) (mapGet "" g.Moves p2.ID)),
                 (p2, resultsEvent (mapGet "" g.Moves p2.ID) (mapGet "" g.Moves p1.ID))],
        fault := false } := by
  simp [evaluateRound, h1, h2, resultsEvent]

theorem findGame_at (l1 l2 : List (String × GameSession)) (e : String × GameSession)
    (id : String) (hno : ∀ a ∈ l1, inGame a.2 id = false) (hin : inGame e.2 id = true) :
    findGame (l1 ++ e :: l2) id = some e := by
  induction l1 with
  | nil => simp [findGame, hin]
  | cons hd tl ih =>
    have hhd : inGame hd.2 id = false := hno hd (List.mem_cons_self _ _)
    have htl : ∀ a ∈ tl, inGame a.2 id = false := fun a ha => hno a (List.mem_cons_of_mem _ ha)
    have := ih htl
    simp only [findGame] at this ⊢
    simp [hhd, this]

theorem storeGame_at (l1 l2 : List (String × GameSession)) (e : String × GameSession)
    (id : String) (g : GameSession) (hno : ∀ a ∈ l1, inGame a.2 id = false)
    (hin : inGame e.2 id = true) :
    storeGame (l1 ++ e :: l2) id g = l1 ++ (e.1, g) :: l2 := by
  induction l1 with
  | nil => simp [storeGame, hin]
  | cons hd tl ih =>
    have hhd : inGame hd.2 id = false := hno hd (List.mem_cons_self _ _)
    have htl : ∀ a ∈ tl, inGame a.2 id = false := fun a ha => hno a (List.mem_cons_of_mem _ ha)
    simp [storeGame, hhd, ih htl]

theorem handleMoveSubmitted_at (s : Server) (l1 l2 : List (String × GameSession))
    (key : String) (g : GameSession) (X : Player) (ev : Event)
    (hl : s.gameSessions = l1 ++ (key, g) :: l2)
    (hno : ∀ a ∈ l1, inGame a.2 X.ID = false) (hin : inGame g X.ID = true) :
    handleMoveSubmitted s X ev =
      if (mapSet g.Moves X.ID (decodeMoveData ev.Data)).length = 2 then
        { server := { s with gameSessions := l1 ++
            (key, (evaluateRound { g with Moves := mapSet g.Moves X.ID (decodeMoveData ev.Data),
                                          State := ServerState.ServerEvaluatingRound }).game)
              :: l2 },
          sent := (evaluateRound { g with Moves := mapSet g.Moves X.ID (decodeMoveData ev.Data),
                                          State := ServerState.ServerEvaluatingRound }).sent,
          fault := (evaluateRound { g with Moves := mapSet g.Moves X.ID (decodeMoveData ev.Data),
                                           State := ServerState.ServerEvaluatingRound }).fault }
      else
        { server := { s with gameSessions := l1 ++
            (key, { g with Moves := mapSet g.Moves X.ID (decodeMoveData ev.Data) }) :: l2 },
          sent := [], fault := false } := by
  have hf := findGame_at l1 l2 (key, g) X.ID hno hin
  have hs := fun g' => storeGame_at l1 l2 (key, g) X.ID g' hno hin
  unfold handleMoveSubmitted
  rw [hl, hf]
  simp only [hs]

theorem gamesOf_split {l : List (String × GameSession)} {A B : Player} {e : String × GameSession}
    (h : gamesOf l A B = [e]) :
    ∃ l1 l2, l = l1 ++ e :: l2 ∧
      (∀ a ∈ l1, inGame a.2 A.ID = false ∧ inGame a.2 B.ID = false) ∧
      (∀ a ∈ l2, inGame a.2 A.ID = false ∧ inGame a.2 B.ID = false) := by
  unfold gamesOf at h
  obtain ⟨l1, l2, hl, h1, -, h2⟩ := List.filter_eq_cons_iff.1 h
  refine ⟨l1, l2, hl, ?_, ?_⟩
  · intro a ha
    have := h1 a ha
    simpa using this
  · intro a ha
    have := List.filter_eq_nil_iff.1 h2 a ha
    simpa using this

theorem gamesOf_at (l1 l2 : List (String × GameSession)) (A B : Player)
    (e : String × GameSession)
    (h1 : ∀ a ∈ l1, inGame a.2 A.ID = false ∧ inGame a.2 B.ID = false)
    (h2 : ∀ a ∈ l2, inGame a.2 A.ID = false ∧ inGame a.2 B.ID = false)
    (he : (inGame e.2 A.ID || inGame e.2 B.ID) = true) :
    gamesOf (l1 ++ e :: l2) A B = [e] := by
  unfold gamesOf
  have e1 : l1.filter (fun e => inGame e.2 A.ID || inGame e.2 B.ID) = [] := by
    apply List.filter_eq_nil_iff.2
    intro a ha
    simp [h1 a ha]
  have e2 : l2.filter (fun e => inGame e.2 A.ID || inGame e.2 B.ID) = [] := by
    apply List.filter_eq_nil_iff.2
    intro a ha
    simp [h2 a ha]
  rw [List.filter_append, e1, List.filter_cons, if_pos he, e2]
  rfl

theorem gamesOf_perm {l l' : List (String × GameSession)} {A B : Player}
    {e : String × GameSession} (hp : l'.Perm l) (h : gamesOf l A B = [e]) :
    gamesOf l' A B = [e] := by
  unfold gamesOf at h ⊢
  have := hp.filter (fun e => inGame e.2 A.ID || inGame e.2 B.ID)
  rw [h] at this
  exact this.eq_singleton

/-- One submission into the only session of `A` and `B`, by one of them whose
move does not complete the round: the move is recorded there and nothing is sent. -/
theorem submit_records (s : Server) (A B X : Player) (key : String) (g : GameSession)
    (ev : Event) (hsole : gamesOf s.gameSessions A B = [(key, g)])
    (hX : X.ID = A.ID ∨ X.ID = B.ID) (hin : inGame g X.ID = true)
    (hlen : (mapSet g.Moves X.ID (decodeMoveData ev.Data)).length ≠ 2) :
    (handleMoveSubmitted s X ev).sent = [] ∧ (handleMoveSubmitted s X ev).fault = false ∧
    (handleMoveSubmitted s X ev).server.waitingPlayer = s.waitingPlayer ∧
    gamesOf (handleMoveSubmitted s X ev).server.gameSessions A B =
      [(key, { g with Moves := mapSet g.Moves X.ID (decodeMoveData ev.Data) })] := by
  obtain ⟨l1, l2, hl, h1, h2⟩ := gamesOf_split hsole
  have hno : ∀ a ∈ l1, inGame a.2 X.ID = false := by
    intro a ha
    rcases hX with h | h
    · rw [h]; exact (h1 a ha).1
    · rw [h]; exact (h1 a ha).2
  rw [handleMoveSubmitted_at s l1 l2 key g X ev hl hno hin, if_neg hlen]
  refine ⟨rfl, rfl, rfl, ?_⟩
  apply gamesOf_at l1 l2 A B _ h1 h2
  have : (inGame g A.ID || inGame g B.ID) = true := by
    rcases hX with h | h
    · rw [← h, hin]; rfl
    · rw [← h, hin]; simp
  simpa [inGame] using this

/-- One submission into the only session of `A` and `B` that completes the
round: both members are sent their results and the move mapping is cleared. -/
theorem submit_resolves (s : Server) (A B X p1 p2 : Player) (key : String) (g : GameSession)
    (ev : Event) (hsole : gamesOf s.gameSessions A B = [(key, g)])
    (hX : X.ID = A.ID ∨ X.ID = B.ID) (hin : inGame g X.ID = true)
    (hp1 : g.Player1 = some p1) (hp2 : g.Player2 = some p2)
    (hlen : (mapSet g.Moves X.ID (decodeMoveData ev.Data)).length = 2) :
    (handleMoveSubmitted s X ev).sent =
      [(p1, resultsEvent (mapGet "" (mapSet g.Moves X.ID (decodeMoveData ev.Data)) p1.ID)
              (mapGet "" (mapSet g.Moves X.ID (decodeMoveData ev.Data)) p2.ID)),
       (p2, resultsEvent (mapGet "" (mapSet g.Moves X.ID (decodeMoveData ev.Data)) p2.ID)
              (mapGet "" (mapSet g.Moves X.ID (decodeMoveData ev.Data)) p1.ID))] ∧
    (handleMoveSubmitted s X ev).fault = false ∧
    (handleMoveSubmitted s X ev).server.waitingPlayer = s.waitingPlayer ∧
    gamesOf (handleMoveSubmitted s X ev).server.gameSessions A B =
      [(key, { g with Moves := [], State := ServerState.ServerGameSession })] := by
  obtain ⟨l1, l2, hl, h1, h2⟩ := gamesOf_split hsole
  have hno : ∀ a ∈ l1, inGame a.2 X.ID = false := by
    intro a ha
    rcases hX with h | h
    · rw [h]; exact (h1 a ha).1
    · rw [h]; exact (h1 a ha).2
  have hev := evaluateRound_of_members
    { g with Moves := mapSet g.Moves X.ID (decodeMoveData ev.Data),
             State := ServerState.ServerEvaluatingRound } p1 p2 hp1 hp2
  rw [handleMoveSubmitted_at s l1 l2 key g X ev hl hno hin, if_pos hlen, hev]
  refine ⟨rfl, rfl, rfl, ?_⟩
  apply gamesOf_at l1 l2 A B _ h1 h2
  have : (inGame g A.ID || inGame g B.ID) = true := by
    rcases hX with h | h
    · rw [← h, hin]; rfl
    · rw [← h, hin]; simp
  simpa [inGame] using this

theorem moves_first (X : Player) (x : Move) :
    mapSet ([] : List (String × Move)) X.ID (decodeMoveData (moveEvent x).Data) = [(X.ID, x)] := by
  simp [mapSet, decodeMoveData, moveEvent]

theorem moves_second (X Y : Player) (x y : Move) (h : X.ID ≠ Y.ID) :
    mapSet [(X.ID, x)] Y.ID (decodeMoveData (moveEvent y).Data) = [(X.ID, x), (Y.ID, y)] := by
  simp [mapSet, decodeMoveData, moveEvent, h]

theorem moves_again (X : Player) (x y : Move) :
    mapSet [(X.ID, x)] X.ID (decodeMoveData (moveEvent y).Data) = [(X.ID, y)] := by
  simp [mapSet, decodeMoveData, moveEvent]

theorem mapGet_pair (X Y : Player) (x y : Move) (h : X.ID ≠ Y.ID) :
    mapGet "" [(X.ID, x), (Y.ID, y)] X.ID = x ∧ mapGet "" [(X.ID, x), (Y.ID, y)] Y.ID = y := by
  simp [mapGet, h]

/-- Two submissions, by `X` and then by `Y`, into the only session of its two
members with an empty move mapping, whatever order the session map presents
in between: nothing is sent at the first, both results at the second. -/
theorem submit_pair (s : Server) (key : String) (g : GameSession) (A B X Y : Player)
    (x y : Move) (h1 : g.Player1 = some A) (h2 : g.Player2 = some B)
    (hXY : X.ID ≠ Y.ID) (hX : X.ID = A.ID ∨ X.ID = B.ID) (hY : Y.ID = A.ID ∨ Y.ID = B.ID)
    (hmoves : g.Moves = []) (hsole : gamesOf s.gameSessions A B = [(key, g)])
    (l : List (String × GameSession))
    (hl : l.Perm (handleMoveSubmitted s X (moveEvent x)).server.gameSessions) :
    (handleMoveSubmitted s X (moveEvent x)).sent = [] ∧
    (handleMoveSubmitted s X (moveEvent x)).fault = false ∧
    (handleMoveSubmitted (reordered (handleMoveSubmitted s X (moveEvent x)).server l) Y
        (moveEvent y)).sent =
      [(A, resultsEvent (mapGet "" [(X.ID, x), (Y.ID, y)] A.ID)
             (mapGet "" [(X.ID, x), (Y.ID, y)] B.ID)),
       (B, resultsEvent (mapGet "" [(X.ID, x), (Y.ID, y)] B.ID)
             (mapGet "" [(X.ID, x), (Y.ID, y)] A.ID))] ∧
    (handleMoveSubmitted (reordered (handleMoveSubmitted s X (moveEvent x)).server l) Y
        (moveEvent y)).fault = false ∧
    gamesOf (handleMoveSubmitted (reordered (handleMoveSubmitted s X (moveEvent x)).server l) Y
        (moveEvent y)).server.gameSessions A B =
      [(key, { g with Moves := [], State := ServerState.ServerGameSession })] := by
  have hinX : inGame g X.ID = true := by
    rcases hX with h | h <;> simp [inGame, h1, h2, h]
  have hinY : inGame g Y.ID = true := by
    rcases hY with h | h <;> simp [inGame, h1, h2, h]
  have hlen1 : (mapSet g.Moves X.ID (decodeMoveData (moveEvent x).Data)).length ≠ 2 := by
    rw [hmoves, moves_first]; simp
  obtain ⟨e1, e2, -, e4⟩ := submit_records s A B X key g (moveEvent x) hsole hX hinX hlen1
  rw [hmoves, moves_first] at e4
  have hsole2 : gamesOf (reordered (handleMoveSubmitted s X (moveEvent x)).server l).gameSessions
      A B = [(key, { g with Moves := [(X.ID, x)] })] := gamesOf_perm hl e4
  have hlen2 : (mapSet ({ g with Moves := [(X.ID, x)] } : GameSession).Moves Y.ID
      (decodeMoveData (moveEvent y).Data)).length = 2 := by
    show (mapSet [(X.ID, x)] Y.ID (decodeMoveData (moveEvent y).Data)).length = 2
    rw [moves_second X Y x y hXY]; rfl
  obtain ⟨f1, f2, -, f4⟩ := submit_resolves _ A B Y A B key { g with Moves := [(X.ID, x)] }
    (moveEvent y) hsole2 hY hinY h1 h2 hlen2
  refine ⟨e1, e2, ?_, f2, f4⟩
  rw [f1]
  show [(A, resultsEvent (mapGet "" (mapSet [(X.ID, x)] Y.ID (decodeMoveData (moveEvent y).Data))
      A.ID) (mapGet "" (mapSet [(X.ID, x)] Y.ID (decodeMoveData (moveEvent y).Data)) B.ID)),
    (B, resultsEvent (mapGet "" (mapSet [(X.ID, x)] Y.ID (decodeMoveData (moveEvent y).Data))
      B.ID) (mapGet "" (mapSet [(X.ID, x)] Y.ID (decodeMoveData (moveEvent y).Data)) A.ID))] = _
  rw [moves_second X Y x y hXY]

/-- C3 (amended). In the only live session of two members `A` and `B` with
different identifiers and an empty move mapping, after `A` submits `a` and `B`
submits `b`, in either order and whatever order the session map presents in
between, the first submission sends nothing and the second sends `A` the
results (a, b, determineResult a b) and `B` the results (b, a,
determineResult b a); the session is still in the session set, again with an
empty move mapping. -/
theorem round_resolution (s : Server) (key : String) (g : GameSession) (A B : Player)
    (a b : Move) (h1 : g.Player1 = some A) (h2 : g.Player2 = some B) (hAB : A.ID ≠ B.ID)
    (hmoves : g.Moves = []) (hsole : gamesOf s.gameSessions A B = [(key, g)]) :
    (∀ l, l.Perm (handleMoveSubmitted s A (moveEvent a)).server.gameSessions →
      (handleMoveSubmitted s A (moveEvent a)).sent = [] ∧
      (handleMoveSubmitted (reordered (handleMoveSubmitted s A (moveEvent a)).server l) B
          (moveEvent b)).sent = [(A, resultsEvent a b), (B, resultsEvent b a)] ∧
      (key, { g with Moves := [], State := ServerState.ServerGameSession }) ∈
        (handleMoveSubmitted (reordered (handleMoveSubmitted s A (moveEvent a)).server l) B
          (moveEvent b)).server.gameSessions ∧
      gamesOf (handleMoveSubmitted (reordered (handleMoveSubmitted s A (moveEvent a)).server l) B
          (moveEvent b)).server.gameSessions A B =
        [(key, { g with Moves := [], State := ServerState.ServerGameSession })]) ∧
    (∀ l, l.Perm (handleMoveSubmitted s B (moveEvent b)).server.gameSessions →
      (handleMoveSubmitted s B (moveEvent b)).sent = [] ∧
      (handleMoveSubmitted (reordered (handleMoveSubmitted s B (moveEvent b)).server l) A
          (moveEvent a)).sent = [(A, resultsEvent a b), (B, resultsEvent b a)] ∧
      (key, { g with Moves := [], State := ServerState.ServerGameSession }) ∈
        (handleMoveSubmitted (reordered (handleMoveSubmitted s B (moveEvent b)).server l) A
          (moveEvent a)).server.gameSessions ∧
      gamesOf (handleMoveSubmitted (reordered (handleMoveSubmitted s B (moveEvent b)).server l) A
          (moveEvent a)).server.gameSessions A B =
        [(key, { g with Moves := [], State := ServerState.ServerGameSession })]) := by
  constructor
  · intro l hl
    obtain ⟨e1, -, e3, -, e5⟩ := submit_pair s key g A B A B a b h1 h2 hAB (Or.inl rfl)
      (Or.inr rfl) hmoves hsole l hl
    have hg := mapGet_pair A B a b hAB
    rw [hg.1, hg.2] at e3
    refine ⟨e1, e3, ?_, e5⟩
    have : (key, { g with Moves := [], State := ServerState.ServerGameSession }) ∈
        gamesOf (handleMoveSubmitted (reordered (handleMoveSubmitted s A (moveEvent a)).server l)
          B (moveEvent b)).server.gameSessions A B := by
      rw [e5]; exact List.mem_singleton_self _
    exact (List.mem_filter.1 this).1
  · intro l hl
    obtain ⟨e1, -, e3, -, e5⟩ := submit_pair s key g A B B A b a h1 h2 (Ne.symm hAB) (Or.inr rfl)
      (Or.inl rfl) hmoves hsole l hl
    have hg : mapGet "" [(B.ID, b), (A.ID, a)] A.ID = a ∧
        mapGet "" [(B.ID, b), (A.ID, a)] B.ID = b := by
      simp [mapGet, Ne.symm hAB]
    rw [hg.1, hg.2] at e3
    refine ⟨e1, e3, ?_, e5⟩
    have : (key, { g with Moves := [], State := ServerState.ServerGameSession }) ∈
        gamesOf (handleMoveSubmitted (reordered (handleMoveSubmitted s B (moveEvent b)).server l)
          A (moveEvent a)).server.gameSessions A B := by
      rw [e5]; exact List.mem_singleton_self _
    exact (List.mem_filter.1 this).1

/-- C3 at alice and bob paired in `game_20`: alice submits rock, bob scissors;
alice is sent (rock, scissors, win) and bob (scissors, rock, lose). -/
theorem round_resolution_witness :
    freshGame.Player1 = some alice ∧ freshGame.Player2 = some bob ∧ alice.ID ≠ bob.ID ∧
    freshGame.Moves = [] ∧ gamesOf alicePlaysBob.gameSessions alice bob = [("game_20", freshGame)] ∧
    (handleMoveSubmitted
        (reordered (handleMoveSubmitted alicePlaysBob alice (moveEvent Rock)).server
          (handleMoveSubmitted alicePlaysBob alice (moveEvent Rock)).server.gameSessions)
        bob (moveEvent Scissors)).sent =
      [(alice, resultsEvent Rock Scissors), (bob, resultsEvent Scissors Rock)] ∧
    resultsEvent Rock Scissors =
      { Typ := "game_results", Data := Payload.gameResults "rock" "scissors" "win" } ∧
    resultsEvent Scissors Rock =
      { Typ := "game_results", Data := Payload.gameResults "scissors" "rock" "lose" } :=
  ⟨by decide, by decide, by decide, by decide, by decide,
   ((round_resolution alicePlaysBob "game_20" freshGame alice bob Rock Scissors (by decide)
      (by decide) (by decide) (by decide) (by decide)).1 _ (List.Perm.refl _)).2.1,
   by decide, by decide⟩

/-- C3 as stated fails. In a reachable registry alice is a member of `game_20`
(with bob) and of `game_40` (with carol), both with empty move mappings.  When
the session map presents `game_40` first, alice's rock is recorded in `game_40`,
bob's scissors in `game_20`, and no `game_results` is sent for `game_20`, whose
move mapping is left non-empty; when it presents `game_20` first, the same
happens to `game_40` with alice and carol.  And in the reachable session of
alice with herself two submissions never resolve a round. -/
theorem round_resolution_fails_with_shared_member :
    (Reachable aliceInTwoGamesSwapped ∧
     aliceInTwoGamesSwapped.gameSessions =
       [("game_40", pairedGame alice carol 40), ("game_20", freshGame)] ∧
     freshGame.Player1 = some alice ∧ freshGame.Player2 = some bob ∧ freshGame.Moves = [] ∧
     (handleMoveSubmitted aliceInTwoGamesSwapped alice (moveEvent Rock)).sent = [] ∧
     (handleMoveSubmitted (handleMoveSubmitted aliceInTwoGamesSwapped alice (moveEvent Rock)).server
        bob (moveEvent Scissors)).sent = [] ∧
     (handleMoveSubmitted (handleMoveSubmitted aliceInTwoGamesSwapped alice (moveEvent Rock)).server
        bob (moveEvent Scissors)).server.gameSessions =
       [("game_40", { pairedGame alice carol 40 with Moves := [("player_1", "rock")] }),
        ("game_20", { freshGame with Moves := [("player_2", "scissors")] })]) ∧
    (Reachable aliceInTwoGames ∧
     aliceInTwoGames.gameSessions =
       [("game_20", freshGame), ("game_40", pairedGame alice carol 40)] ∧
     (pairedGame alice carol 40).Player1 = some alice ∧
     (pairedGame alice carol 40).Player2 = some carol ∧ (pairedGame alice carol 40).Moves = [] ∧
     (handleMoveSubmitted aliceInTwoGames alice (moveEvent Rock)).sent = [] ∧
     (handleMoveSubmitted (handleMoveSubmitted aliceInTwoGames alice (moveEvent Rock)).server
        carol (moveEvent Scissors)).sent = [] ∧
     (handleMoveSubmitted (handleMoveSubmitted aliceInTwoGames alice (moveEvent Rock)).server
        carol (moveEvent Scissors)).server.gameSessions =
       [("game_20", { freshGame with Moves := [("player_1", "rock")] }),
        ("game_40", { pairedGame alice carol 40 with Moves := [("player_3", "scissors")] })]) ∧
    (Reachable aliceWithHerself ∧
     aliceWithHerself.gameSessions = [("game_20", pairedGame alice alice 20)] ∧
     (handleMoveSubmitted aliceWithHerself alice (moveEvent Rock)).sent = [] ∧
     (handleMoveSubmitted (handleMoveSubmitted aliceWithHerself alice (moveEvent Rock)).server
        alice (moveEvent Scissors)).sent = [] ∧
     (handleMoveSubmitted (handleMoveSubmitted aliceWithHerself alice (moveEvent Rock)).server
        alice (moveEvent Scissors)).server.gameSessions =
       [("game_20", { pairedGame alice alice 20 with Moves := [("player_1", "scissors")] })]) := by
  refine ⟨⟨?_, by decide, by decide, by decide, by decide, by decide, by decide, by decide⟩,
    ⟨?_, by decide, by decide, by decide, by decide, by decide, by decide, by decide⟩,
    ⟨?_, by decide, by decide, by decide, by decide⟩⟩
  · exact ReachableVia.reorder _ (reachable_runOps _ _ ReachableVia.init)
      (List.reverse_perm _)
  · exact reachable_runOps _ _ ReachableVia.init
  · exact reachable_runOps _ _ ReachableVia.init

/-- C7 (amended). In the only live session of members `A` and `B` with different
identifiers where `A` has recorded `c1` and `B` has not submitted, a second
submission of `A` with `c2` sends nothing and overwrites the record: the move
mapping still has the single key of `A`, now with `c2`; when `B` then submits
`b` the round resolves with `c2`, `A` being sent (c2, b, determineResult c2 b)
and `B` (b, c2, determineResult b c2), first to the session's first member. -/
theorem duplicate_choice_overwrites (s : Server) (key : String) (g : GameSession)
    (A B : Player) (c1 c2 b : Move)
    (hmem : (g.Player1 = some A ∧ g.Player2 = some B) ∨
      (g.Player1 = some B ∧ g.Player2 = some A))
    (hAB : A.ID ≠ B.ID) (hmoves : g.Moves = [(A.ID, c1)])
    (hsole : gamesOf s.gameSessions A B = [(key, g)]) :
    (handleMoveSubmitted s A (moveEvent c2)).sent = [] ∧
    gamesOf (handleMoveSubmitted s A (moveEvent c2)).server.gameSessions A B =
      [(key, { g with Moves := [(A.ID, c2)] })] ∧
    ∀ l, l.Perm (handleMoveSubmitted s A (moveEvent c2)).server.gameSessions →
      (g.Player1 = some A →
        (handleMoveSubmitted (reordered (handleMoveSubmitted s A (moveEvent c2)).server l) B
          (moveEvent b)).sent = [(A, resultsEvent c2 b), (B, resultsEvent b c2)]) ∧
      (g.Player1 = some B →
        (handleMoveSubmitted (reordered (handleMoveSubmitted s A (moveEvent c2)).server l) B
          (moveEvent b)).sent = [(B, resultsEvent b c2), (A, resultsEvent c2 b)]) := by
  have hinA : inGame g A.ID = true := by
    rcases hmem with ⟨h1, h2⟩ | ⟨h1, h2⟩ <;> simp [inGame, h1, h2]
  have hinB : inGame g B.ID = true := by
    rcases hmem with ⟨h1, h2⟩ | ⟨h1, h2⟩ <;> simp [inGame, h1, h2]
  have hlen1 : (mapSet g.Moves A.ID (decodeMoveData (moveEvent c2).Data)).length ≠ 2 := by
    rw [hmoves, moves_again]; simp
  obtain ⟨e1, -, -, e4⟩ := submit_records s A B A key g (moveEvent c2) hsole (Or.inl rfl) hinA
    hlen1
  rw [hmoves, moves_again] at e4
  refine ⟨e1, e4, ?_⟩
  intro l hl
  have hsole2 : gamesOf (reordered (handleMoveSubmitted s A (moveEvent c2)).server l).gameSessions
      A B = [(key, { g with Moves := [(A.ID, c2)] })] := gamesOf_perm hl e4
  have hlen2 : (mapSet ({ g with Moves := [(A.ID, c2)] } : GameSession).Moves B.ID
      (decodeMoveData (moveEvent b).Data)).length = 2 := by
    show (mapSet [(A.ID, c2)] B.ID (decodeMoveData (moveEvent b).Data)).length = 2
    rw [moves_second A B c2 b hAB]; rfl
  have hg := mapGet_pair A B c2 b hAB
  constructor
  · intro h1
    have h2 : g.Player2 = some B := by
      rcases hmem with ⟨-, h2⟩ | ⟨h1', -⟩
      · exact h2
      · rw [h1] at h1'
        exact absurd (congrArg Player.ID (Option.some.inj h1')) hAB
    obtain ⟨f1, -⟩ := submit_resolves _ A B B A B key { g with Moves := [(A.ID, c2)] }
      (moveEvent b) hsole2 (Or.inr rfl) hinB h1 h2 hlen2
    rw [f1]
    show [(A, resultsEvent (mapGet "" (mapSet [(A.ID, c2)] B.ID
        (decodeMoveData (moveEvent b).Data)) A.ID) (mapGet "" (mapSet [(A.ID, c2)] B.ID
        (decodeMoveData (moveEvent b).Data)) B.ID)),
      (B, resultsEvent (mapGet "" (mapSet [(A.ID, c2)] B.ID
        (decodeMoveData (moveEvent b).Data)) B.ID) (mapGet "" (mapSet [(A.ID, c2)] B.ID
        (decodeMoveData (moveEvent b).Data)) A.ID))] = _
    rw [moves_second A B c2 b hAB, hg.1, hg.2]
  · intro h1
    have h2 : g.Player2 = some A := by
      rcases hmem with ⟨h1', -⟩ | ⟨-, h2⟩
      · rw [h1] at h1'
        exact absurd (congrArg Player.ID (Option.some.inj h1')).symm hAB
      · exact h2
    obtain ⟨f1, -⟩ := submit_resolves _ A B B B A key { g with Moves := [(A.ID, c2)] }
      (moveEvent b) hsole2 (Or.inr rfl) hinB h1 h2 hlen2
    rw [f1]
    show [(B, resultsEvent (mapGet "" (mapSet [(A.ID, c2)] B.ID
        (decodeMoveData (moveEvent b).Data)) B.ID) (mapGet "" (mapSet [(A.ID, c2)] B.ID
        (decodeMoveData (moveEvent b).Data)) A.ID)),
      (A, resultsEvent (mapGet "" (mapSet [(A.ID, c2)] B.ID
        (decodeMoveData (moveEvent b).Data)) A.ID) (mapGet "" (mapSet [(A.ID, c2)] B.ID
        (decodeMoveData (moveEvent b).Data)) B.ID))] = _
    rw [moves_second A B c2 b hAB, hg.1, hg.2]

/-- C7 at alice, who chose rock against bob and then submits paper: her record
becomes paper. -/
theorem duplicate_choice_overwrites_witness :
    ((freshGame.Player1 = some alice ∧ freshGame.Player2 = some bob) ∨
      (freshGame.Player1 = some bob ∧ freshGame.Player2 = some alice)) ∧
    alice.ID ≠ bob.ID ∧
    gamesOf aliceChoseRock.gameSessions alice bob =
      [("game_20", { freshGame with Moves := [(alice.ID, Rock)] })] ∧
    gamesOf (handleMoveSubmitted aliceChoseRock alice (moveEvent Paper)).server.gameSessions
      alice bob = [("game_20", { freshGame with Moves := [(alice.ID, Paper)] })] :=
  ⟨by decide, by decide, by decide,
   (duplicate_choice_overwrites aliceChoseRock "game_20"
      { freshGame with Moves := [(alice.ID, Rock)] } alice bob Rock Paper Scissors
      (by decide) (by decide) (by decide) (by decide)).2.1⟩

/-- C7 as stated fails. Alice, paired with bob, has recorded rock; her second
submission, paper, changes the move mapping of the session: her recorded choice
is paper, and when bob submits scissors the round resolves with paper (alice
loses) and not with rock (alice would win). -/
theorem duplicate_choice_not_rejected :
    aliceChoseRock.gameSessions =
      [("game_20", { freshGame with Moves := [("player_1", "rock")] })] ∧
    (handleMoveSubmitted aliceChoseRock alice (moveEvent Paper)).server.gameSessions =
      [("game_20", { freshGame with Moves := [("player_1", "paper")] })] ∧
    (handleMoveSubmitted aliceChoseRock alice (moveEvent Paper)).server.gameSessions ≠
      aliceChoseRock.gameSessions ∧
    (handleMoveSubmitted (handleMoveSubmitted aliceChoseRock alice (moveEvent Paper)).server bob
        (moveEvent Scissors)).sent =
      [(alice, { Typ := "game_results", Data := Payload.gameResults "paper" "scissors" "lose" }),
       (bob, { Typ := "game_results", Data := Payload.gameResults "scissors" "paper" "win" })] ∧
    determineResult Rock Scissors = "win" := by
  refine ⟨by decide, by decide, by decide, by decide, by decide⟩

/-! ## Effect of the handlers on the session map -/

theorem sameMembers_refl (l : List (String × GameSession)) : sameMembers l l := by
  induction l with
  | nil => exact List.Forall₂.nil
  | cons hd tl ih => exact List.Forall₂.cons ⟨rfl, rfl, rfl⟩ ih

theorem inGame_congr {g' g : GameSession} (h1 : g'.Player1 = g.Player1)
    (h2 : g'.Player2 = g.Player2) (id : String) : inGame g' id = inGame g id := by
  simp [inGame, h1, h2]

theorem storeGame_sameMembers (l : List (String × GameSession)) (id : String)
    (g' : GameSession)
    (h : ∀ e, findGame l id = some e → g'.Player1 = e.2.Player1 ∧ g'.Player2 = e.2.Player2) :
    sameMembers (storeGame l id g') l := by
  induction l with
  | nil => exact List.Forall₂.nil
  | cons hd tl ih =>
    by_cases hin : inGame hd.2 id = true
    · have hf : findGame (hd :: tl) id = some hd := by simp [findGame, hin]
      have := h hd hf
      simp only [storeGame, hin, if_true]
      exact List.Forall₂.cons ⟨rfl, this.1, this.2⟩ (sameMembers_refl tl)
    · have hf : findGame (hd :: tl) id = findGame tl id := by simp [findGame, hin]
      simp only [storeGame, hin]
      exact List.Forall₂.cons ⟨rfl, rfl, rfl⟩ (ih (fun e he => h e (hf ▸ he)))

theorem evaluateRound_members (g : GameSession) :
    (evaluateRound g).game.Player1 = g.Player1 ∧ (evaluateRound g).game.Player2 = g.Player2 := by
  obtain ⟨id, st, p1, p2, mv⟩ := g
  cases p1 <;> cases p2 <;> exact ⟨rfl, rfl⟩

theorem handleMoveSubmitted_frame (s : Server) (p : Player) (ev : Event) :
    sameMembers (handleMoveSubmitted s p ev).server.gameSessions s.gameSessions ∧
    (handleMoveSubmitted s p ev).server.waitingPlayer = s.waitingPlayer := by
  unfold handleMoveSubmitted
  cases hf : findGame s.gameSessions p.ID with
  | none => exact ⟨sameMembers_refl _, rfl⟩
  | some e =>
    obtain ⟨k, game⟩ := e
    simp only
    split_ifs
    · refine ⟨storeGame_sameMembers _ _ _ ?_, rfl⟩
      intro e he
      rw [hf] at he
      cases he
      exact evaluateRound_members _
    · refine ⟨storeGame_sameMembers _ _ _ ?_, rfl⟩
      intro e he
      rw [hf] at he
      cases he
      exact ⟨rfl, rfl⟩

theorem handlePlayAgain_frame (s : Server) (p : Player) :
    sameMembers (handlePlayAgain s p).server.gameSessions s.gameSessions ∧
    (handlePlayAgain s p).server.waitingPlayer = s.waitingPlayer := by
  unfold handlePlayAgain
  cases hf : findGame s.gameSessions p.ID with
  | none => exact ⟨sameMembers_refl _, rfl⟩
  | some e =>
    obtain ⟨k, game⟩ := e
    have hs : sameMembers (storeGame s.gameSessions p.ID
        { game with State := ServerState.ServerCollectingMoves }) s.gameSessions := by
      refine storeGame_sameMembers _ _ _ ?_
      intro e he
      rw [hf] at he
      cases he
      exact ⟨rfl, rfl⟩
    obtain ⟨id, st, p1, p2, mv⟩ := game
    cases p1 <;> cases p2 <;> exact ⟨hs, rfl⟩

theorem handleLeaveGame_sessions (s : Server) (p : Player) :
    (handleLeaveGame s p).server.gameSessions.Sublist s.gameSessions := by
  unfold handleLeaveGame
  cases hf : findGame s.gameSessions p.ID with
  | none => exact List.Sublist.refl _
  | some e => exact List.filter_sublist _

theorem handleLeaveGame_waiting (s : Server) (p : Player) (w : Player)
    (h : (handleLeaveGame s p).server.waitingPlayer = some w) : s.waitingPlayer = some w := by
  unfold handleLeaveGame at h
  cases hw : s.waitingPlayer with
  | none => simp [hw] at h
  | some w' =>
    simp only [hw] at h
    split_ifs at h
    exact h

theorem sameMembers_mem {l' l : List (String × GameSession)} (h : sameMembers l' l)
    {e' : String × GameSession} (he : e' ∈ l') :
    ∃ e ∈ l, e'.1 = e.1 ∧ e'.2.Player1 = e.2.Player1 ∧ e'.2.Player2 = e.2.Player2 := by
  induction h with
  | nil => cases he
  | cons hrel _ ih =>
    rcases List.mem_cons.1 he with rfl | he
    · exact ⟨_, List.mem_cons_self _ _, hrel⟩
    · obtain ⟨e, hmem, hr⟩ := ih he
      exact ⟨e, List.mem_cons_of_mem _ hmem, hr⟩

theorem memberCount_sameMembers {l' l : List (String × GameSession)} (h : sameMembers l' l)
    (id : String) : memberCount l' id = memberCount l id := by
  induction h with
  | nil => rfl
  | @cons e' e tl' tl hrel _ ih =>
    have hin : inGame e'.2 id = inGame e.2 id := inGame_congr hrel.2.1 hrel.2.2 id
    simp only [memberCount] at ih ⊢
    simp only [List.filter_cons, hin]
    split_ifs
    · simp [ih]
    · exact ih

theorem memberCount_sublist {l' l : List (String × GameSession)} (h : l'.Sublist l)
    (id : String) : memberCount l' id ≤ memberCount l id :=
  (h.filter _).length_le

theorem memberCount_perm {l' l : List (String × GameSession)} (h : l'.Perm l) (id : String) :
    memberCount l' id = memberCount l id :=
  (h.filter _).length_eq

theorem memberCount_cons (hd : String × GameSession) (tl : List (String × GameSession))
    (id : String) :
    memberCount (hd :: tl) id = memberCount tl id + (if inGame hd.2 id = true then 1 else 0) := by
  simp only [memberCount, ← List.countP_eq_length_filter, List.countP_cons]

theorem memberCount_mapSet (l : List (String × GameSession)) (k : String) (g : GameSession)
    (id : String) :
    memberCount (mapSet l k g) id ≤ memberCount l id + (if inGame g id = true then 1 else 0) := by
  induction l with
  | nil =>
    show memberCount [(k, g)] id ≤ _
    rw [memberCount_cons]
  | cons hd tl ih =>
    obtain ⟨k', g'⟩ := hd
    show memberCount (if k' = k then (k, g) :: tl else (k', g') :: mapSet tl k g) id ≤ _
    by_cases hk : k' = k
    · rw [if_pos hk, memberCount_cons, memberCount_cons]
      show memberCount tl id + (if inGame g id = true then 1 else 0) ≤
        memberCount tl id + (if inGame g' id = true then 1 else 0) +
          (if inGame g id = true then 1 else 0)
      omega
    · rw [if_neg hk, memberCount_cons, memberCount_cons]
      show memberCount (mapSet tl k g) id + (if inGame g' id = true then 1 else 0) ≤
        memberCount tl id + (if inGame g' id = true then 1 else 0) +
          (if inGame g id = true then 1 else 0)
      omega

theorem memberCount_zero {l : List (String × GameSession)} {id : String}
    (h : memberCount l id = 0) : ∀ e ∈ l, inGame e.2 id = false := by
  intro e he
  unfold memberCount at h
  have := List.filter_eq_nil_iff.1 (List.length_eq_zero.1 h) e he
  simpa using this

theorem inGame_pairedGame (w p : Player) (now : Int) (id : String)
    (h : inGame (pairedGame w p now) id = true) : w.ID = id ∨ p.ID = id := by
  simpa [inGame, pairedGame] using h

/-- Induction over the reachable states. -/
theorem ReachableVia.invariant {ok : Server → Op → Prop} (I : Server → Prop)
    (h0 : I NewServer)
    (hstep : ∀ s op, I s → ok s op → I (op.run s).server)
    (hre : ∀ s l, I s → l.Perm s.gameSessions → I { s with gameSessions := l })
    (hpl : ∀ s pl, I s → I { s with players := pl }) :
    ∀ s, ReachableVia ok s → I s := by
  intro s h
  induction h with
  | init => exact h0
  | step op _ hok ih => exact hstep _ op ih hok
  | reorder l _ hp ih => exact hre _ l ih hp
  | connect conn now _ ih => exact hpl _ _ ih
  | disconnect playerID _ ih => exact hpl _ _ ih

/-! ## Invariants of the reachable states -/

/-- A property of sessions that only looks at the two members is kept by every
operation, provided the session a pairing creates has it. -/
theorem sessions_forall_step (P : GameSession → Prop)
    (hP : ∀ g g' : GameSession, g'.Player1 = g.Player1 → g'.Player2 = g.Player2 → P g → P g')
    (s : Server) (op : Op) (hinv : ∀ e ∈ s.gameSessions, P e.2)
    (hnew : ∀ p now w, op = Op.findPartner p now → s.waitingPlayer = some w →
      P (pairedGame w p now)) :
    ∀ e ∈ (op.run s).server.gameSessions, P e.2 := by
  intro e he
  cases op with
  | findPartner p now =>
    simp only [Op.run] at he
    cases hw : s.waitingPlayer with
    | none =>
      rw [handleFindPartner_of_empty s p now hw] at he
      exact hinv e he
    | some w =>
      rw [handleFindPartner_of_waiting s w p now hw] at he
      rcases mem_mapSet he with rfl | h
      · exact hnew p now w rfl hw
      · exact hinv e h
  | moveSubmitted p ev =>
    obtain ⟨e0, hmem, -, h1, h2⟩ := sameMembers_mem (handleMoveSubmitted_frame s p ev).1 he
    exact hP _ _ h1 h2 (hinv e0 hmem)
  | playAgain p =>
    obtain ⟨e0, hmem, -, h1, h2⟩ := sameMembers_mem (handlePlayAgain_frame s p).1 he
    exact hP _ _ h1 h2 (hinv e0 hmem)
  | leaveGame p =>
    exact hinv e ((handleLeaveGame_sessions s p).subset he)

theorem waitingFree_step (s : Server) (op : Op)
    (hinv : ∀ w, s.waitingPlayer = some w → memberCount s.gameSessions w.ID = 0)
    (hok : callerFree s op) :
    ∀ w, (op.run s).server.waitingPlayer = some w →
      memberCount (op.run s).server.gameSessions w.ID = 0 := by
  intro w hw'
  cases op with
  | findPartner p now =>
    simp only [Op.run] at hw' ⊢
    cases hw : s.waitingPlayer with
    | none =>
      rw [handleFindPartner_of_empty s p now hw] at hw' ⊢
      cases hw'
      exact hok
    | some w0 =>
      rw [handleFindPartner_of_waiting s w0 p now hw] at hw'
      cases hw'
  | moveSubmitted p ev =>
    simp only [Op.run] at hw' ⊢
    obtain ⟨h1, h2⟩ := handleMoveSubmitted_frame s p ev
    rw [memberCount_sameMembers h1]
    exact hinv w (h2 ▸ hw')
  | playAgain p =>
    simp only [Op.run] at hw' ⊢
    obtain ⟨h1, h2⟩ := handlePlayAgain_frame s p
    rw [memberCount_sameMembers h1]
    exact hinv w (h2 ▸ hw')
  | leaveGame p =>
    simp only [Op.run] at hw' ⊢
    have h0 := hinv w (handleLeaveGame_waiting s p w hw')
    have hle := memberCount_sublist (handleLeaveGame_sessions s p) w.ID
    omega

theorem atMostOne_step (s : Server) (op : Op)
    (hfree : ∀ w, s.waitingPlayer = some w → memberCount s.gameSessions w.ID = 0)
    (hinv : ∀ id, memberCount s.gameSessions id ≤ 1) (hok : callerFree s op) :
    ∀ id, memberCount (op.run s).server.gameSessions id ≤ 1 := by
  intro id
  cases op with
  | findPartner p now =>
    simp only [Op.run]
    cases hw : s.waitingPlayer with
    | none =>
      rw [handleFindPartner_of_empty s p now hw]
      exact hinv id
    | some w =>
      rw [handleFindPartner_of_waiting s w p now hw]
      have hle := memberCount_mapSet s.gameSessions (gameIDOf now) (pairedGame w p now) id
      by_cases hin : inGame (pairedGame w p now) id = true
      · rw [if_pos hin] at hle
        have h0 : memberCount s.gameSessions id = 0 := by
          rcases inGame_pairedGame w p now id hin with h | h
          · rw [← h]; exact hfree w hw
          · rw [← h]; exact hok
        show memberCount (mapSet s.gameSessions (gameIDOf now) (pairedGame w p now)) id ≤ 1
        omega
      · rw [if_neg hin] at hle
        have := hinv id
        show memberCount (mapSet s.gameSessions (gameIDOf now) (pairedGame w p now)) id ≤ 1
        omega
  | moveSubmitted p ev =>
    simp only [Op.run]
    rw [memberCount_sameMembers (handleMoveSubmitted_frame s p ev).1]
    exact hinv id
  | playAgain p =>
    simp only [Op.run]
    rw [memberCount_sameMembers (handlePlayAgain_frame s p).1]
    exact hinv id
  | leaveGame p =>
    simp only [Op.run]
    have hle := memberCount_sublist (handleLeaveGame_sessions s p) id
    have := hinv id
    omega

theorem waitingFree_of_reachable (ok : Server → Op → Prop)
    (hok : ∀ s op, ok s op → callerFree s op) (s : Server) (h : ReachableVia ok s) :
    ∀ w, s.waitingPlayer = some w → memberCount s.gameSessions w.ID = 0 := by
  refine ReachableVia.invariant
    (fun s => ∀ w, s.waitingPlayer = some w → memberCount s.gameSessions w.ID = 0)
    ?_ ?_ ?_ ?_ s h
  · intro w hw
    cases hw
  · intro s op hinv ho
    exact waitingFree_step s op hinv (hok s op ho)
  · intro s l hinv hp w hw
    show memberCount l w.ID = 0
    rw [memberCount_perm hp]
    exact hinv w hw
  · intro s pl hinv w hw
    exact hinv w hw

theorem bothPresent_of_reachable (ok : Server → Op → Prop) (s : Server)
    (h : ReachableVia ok s) : ∀ e ∈ s.gameSessions, bothPresent e.2 := by
  refine ReachableVia.invariant (fun s => ∀ e ∈ s.gameSessions, bothPresent e.2)
    ?_ ?_ ?_ ?_ s h
  · intro e he
    cases he
  · intro s op hinv _
    refine sessions_forall_step bothPresent ?_ s op hinv ?_
    · intro g g' h1 h2 hg
      unfold bothPresent at hg ⊢
      rw [h1, h2]
      exact hg
    · intro p now w _ _
      exact trivial
  · intro s l hinv hp e he
    exact hinv e (hp.subset he)
  · intro s pl hinv e he
    exact hinv e he

/-- In a reachable registry the three in-session handlers return without a
fault: every session holds both member references. -/
theorem in_session_handlers_return (s : Server) (h : Reachable s) (p : Player) (ev : Event) :
    (handleMoveSubmitted s p ev).fault = false ∧ (handlePlayAgain s p).fault = false ∧
    (handleLeaveGame s p).fault = false := by
  have hb := bothPresent_of_reachable _ s h
  refine ⟨?_, ?_, rfl⟩
  · unfold handleMoveSubmitted
    cases hf : findGame s.gameSessions p.ID with
    | none => rfl
    | some e =>
      obtain ⟨k, game⟩ := e
      have hg := hb _ (List.mem_of_find?_eq_some hf)
      obtain ⟨id, st, p1, p2, mv⟩ := game
      cases p1 <;> cases p2 <;> simp [bothPresent] at hg
      simp only
      split_ifs <;> rfl
  · unfold handlePlayAgain
    cases hf : findGame s.gameSessions p.ID with
    | none => rfl
    | some e =>
      obtain ⟨k, game⟩ := e
      have hg := hb _ (List.mem_of_find?_eq_some hf)
      obtain ⟨id, st, p1, p2, mv⟩ := game
      cases p1 <;> cases p2 <;> simp [bothPresent] at hg
      rfl

/-- C8 (amended). In every registry state reached from the empty registry by
`handleFindPartner` calls whose callers are, at the time of the call, members
of no live session, the waiting slot holds zero or one participant and the
participant it holds is a member of no live session. -/
theorem waiting_slot_invariant (s : Server)
    (h : ReachableVia (fun s op => isFind op ∧ callerFree s op) s) :
    s.waitingPlayer.toList.length ≤ 1 ∧
    ∀ w, s.waitingPlayer = some w →
      memberCount s.gameSessions w.ID = 0 ∧ ∀ e ∈ s.gameSessions, inGame e.2 w.ID = false := by
  constructor
  · cases s.waitingPlayer <;> simp
  · intro w hw
    have h0 := waitingFree_of_reachable _ (fun _ _ ho => ho.2) s h w hw
    exact ⟨h0, memberCount_zero h0⟩

/-- C8 with alice and bob paired and carol waiting: carol is in no session. -/
theorem waiting_slot_invariant_witness :
    ReachableVia (fun s op => isFind op ∧ callerFree s op) carolWaiting ∧
    carolWaiting.waitingPlayer = some carol ∧
    carolWaiting.gameSessions = [("game_20", freshGame)] ∧
    memberCount carolWaiting.gameSessions carol.ID = 0 := by
  have hr : ReachableVia (fun s op => isFind op ∧ callerFree s op) carolWaiting := by
    refine ReachableVia.step (Op.findPartner carol 30)
      (ReachableVia.step (Op.findPartner bob 20)
        (ReachableVia.step (Op.findPartner alice 10) ReachableVia.init ⟨trivial, ?_⟩)
        ⟨trivial, ?_⟩) ⟨trivial, ?_⟩
    · show memberCount _ _ = 0
      decide
    · show memberCount _ _ = 0
      decide
    · show memberCount _ _ = 0
      decide
  exact ⟨hr, by decide, by decide, ((waiting_slot_invariant carolWaiting hr).2 carol (by decide)).1⟩

/-- C8 as stated fails. Three `handleFindPartner` calls (alice, bob, alice)
reach a registry whose waiting slot holds alice while alice is a member of the
live session `game_20`. -/
theorem waiting_slot_invariant_fails :
    ReachableVia (fun _ op => isFind op) aliceWaitingAgain ∧
    aliceWaitingAgain.waitingPlayer = some alice ∧
    ("game_20", freshGame) ∈ aliceWaitingAgain.gameSessions ∧
    inGame freshGame alice.ID = true ∧
    memberCount aliceWaitingAgain.gameSessions alice.ID = 1 := by
  refine ⟨?_, by decide, by decide, by decide, by decide⟩
  exact ReachableVia.step (Op.findPartner alice 30)
    (ReachableVia.step (Op.findPartner bob 20)
      (ReachableVia.step (Op.findPartner alice 10) ReachableVia.init trivial) trivial) trivial

/-- C9 (amended). In every registry state reached from the empty registry by
registry operations in which no `handleFindPartner` call is made under the
identifier of the participant then in the waiting slot, every session has two
members with different identifiers; a waiting participant who requests pairing
a second time is paired with itself. -/
theorem members_distinct (s : Server) (h : ReachableVia callerNotWaiting s) :
    (∀ e ∈ s.gameSessions, distinctMembers e.2) ∧
    ∀ w now, s.waitingPlayer = some w →
      (gameIDOf now, pairedGame w w now) ∈ (handleFindPartner s w now).server.gameSessions ∧
      (pairedGame w w now).Player1 = some w ∧ (pairedGame w w now).Player2 = some w := by
  constructor
  · refine ReachableVia.invariant (fun s => ∀ e ∈ s.gameSessions, distinctMembers e.2)
      ?_ ?_ ?_ ?_ s h
    · intro e he
      cases he
    · intro s op hinv hok
      refine sessions_forall_step distinctMembers ?_ s op hinv ?_
      · intro g g' h1 h2 hg
        unfold distinctMembers at hg ⊢
        rw [h1, h2]
        exact hg
      · intro p now w hop hw
        subst hop
        simp only [callerNotWaiting, hw] at hok
        exact hok
    · intro s l hinv hp e he
      exact hinv e (hp.subset he)
    · intro s pl hinv e he
      exact hinv e he
  · intro w now hw
    rw [handleFindPartner_of_waiting s w w now hw]
    exact ⟨mapSet_mem _ _ _, rfl, rfl⟩

/-- C9 with alice and bob paired: the members of `game_20` differ. -/
theorem members_distinct_witness :
    ReachableVia callerNotWaiting alicePlaysBob ∧
    alicePlaysBob.gameSessions = [("game_20", freshGame)] ∧ distinctMembers freshGame := by
  have hr : ReachableVia callerNotWaiting alicePlaysBob := by
    refine ReachableVia.step (Op.findPartner bob 20)
      (ReachableVia.step (Op.findPartner alice 10) ReachableVia.init ?_) ?_
    · exact trivial
    · show alice.ID ≠ bob.ID
      decide
  exact ⟨hr, by decide, (members_distinct alicePlaysBob hr).1 ("game_20", freshGame) (by decide)⟩

/-- C9 as stated fails. Alice asks for a partner twice in a row; the second
call pairs her with herself: the reachable session `game_20` has alice as both
members. -/
theorem members_distinct_fails :
    Reachable aliceWithHerself ∧
    aliceWithHerself.gameSessions = [("game_20", pairedGame alice alice 20)] ∧
    (pairedGame alice alice 20).Player1 = some alice ∧
    (pairedGame alice alice 20).Player2 = some alice ∧
    ¬ distinctMembers (pairedGame alice alice 20) := by
  refine ⟨reachable_runOps _ _ ReachableVia.init, by decide, by decide, by decide, ?_⟩
  simp [distinctMembers, pairedGame]

/-- C10 (amended). In every registry state reached from the empty registry by
registry operations in which every `handleFindPartner` caller is, at the time
of the call, a member of no live session, each participant identifier is a
member of at most one session.  A `handleFindPartner` call is never a no-op,
whoever makes it: on an empty waiting slot it puts the caller there, on an
occupied one it pairs the caller with the waiting participant and empties it. -/
theorem single_membership (s : Server) (h : ReachableVia callerFree s) :
    (∀ id, memberCount s.gameSessions id ≤ 1) ∧
    ∀ (P : Player) (now : Int),
      (s.waitingPlayer = none →
        (handleFindPartner s P now).server = { s with waitingPlayer := some P }) ∧
      (∀ w, s.waitingPlayer = some w →
        (handleFindPartner s P now).server =
          { s with
            gameSessions := mapSet s.gameSessions (gameIDOf now) (pairedGame w P now),
            waitingPlayer := none }) := by
  constructor
  · have hI : (∀ w, s.waitingPlayer = some w → memberCount s.gameSessions w.ID = 0) ∧
        ∀ id, memberCount s.gameSessions id ≤ 1 := by
      refine ReachableVia.invariant
        (fun s => (∀ w, s.waitingPlayer = some w → memberCount s.gameSessions w.ID = 0) ∧
          ∀ id, memberCount s.gameSessions id ≤ 1) ?_ ?_ ?_ ?_ s h
      · refine ⟨?_, ?_⟩
        · intro w hw
          cases hw
        · intro id
          exact Nat.zero_le _
      · intro s op hinv hok
        exact ⟨waitingFree_step s op hinv.1 hok, atMostOne_step s op hinv.1 hinv.2 hok⟩
      · intro s l hinv hp
        refine ⟨?_, ?_⟩
        · intro w hw
          show memberCount l w.ID = 0
          rw [memberCount_perm hp]
          exact hinv.1 w hw
        · intro id
          show memberCount l id ≤ 1
          rw [memberCount_perm hp]
          exact hinv.2 id
      · intro s pl hinv
        exact hinv
    exact hI.2
  · intro P now
    constructor
    · intro hw
      rw [handleFindPartner_of_empty s P now hw]
    · intro w hw
      rw [handleFindPartner_of_waiting s w P now hw]

/-- C10 with alice and bob paired and carol waiting: alice is in one session. -/
theorem single_membership_witness :
    ReachableVia callerFree carolWaiting ∧
    carolWaiting.gameSessions = [("game_20", freshGame)] ∧
    memberCount carolWaiting.gameSessions alice.ID ≤ 1 := by
  have hr : ReachableVia callerFree carolWaiting := by
    refine ReachableVia.step (Op.findPartner carol 30)
      (ReachableVia.step (Op.findPartner bob 20)
        (ReachableVia.step (Op.findPartner alice 10) ReachableVia.init ?_) ?_) ?_
    · show memberCount _ _ = 0
      decide
    · show memberCount _ _ = 0
      decide
    · show memberCount _ _ = 0
      decide
  exact ⟨hr, by decide, (single_membership carolWaiting hr).1 alice.ID⟩

/-- C10 as stated fails. Alice, a member of `game_20`, asks for a partner
again: the call is not a no-op, it puts her in the waiting slot; carol's call
then pairs them, and in the reached registry alice is a member of two sessions. -/
theorem single_membership_fails :
    Reachable alicePlaysBob ∧ alicePlaysBob.waitingPlayer = none ∧
    memberCount alicePlaysBob.gameSessions alice.ID = 1 ∧
    (handleFindPartner alicePlaysBob alice 30).server.waitingPlayer = some alice ∧
    Reachable aliceInTwoGames ∧
    aliceInTwoGames.gameSessions =
      [("game_20", freshGame), ("game_40", pairedGame alice carol 40)] ∧
    memberCount aliceInTwoGames.gameSessions alice.ID = 2 := by
  refine ⟨?_, by decide, by decide, by decide, reachable_runOps _ _ ReachableVia.init,
    by decide, by decide⟩
  exact reachable_runOps NewServer [Op.findPartner alice 10, Op.findPartner bob 20]
    ReachableVia.init

/-! ## Frame of the in-session handlers -/

theorem findGame_split {l : List (String × GameSession)} {id : String}
    {e : String × GameSession} (h : findGame l id = some e) :
    inGame e.2 id = true ∧
      ∃ l1 l2, l = l1 ++ e :: l2 ∧ ∀ a ∈ l1, inGame a.2 id = false := by
  unfold findGame at h
  obtain ⟨hp, l1, l2, hl, hno⟩ := List.find?_eq_some.1 h
  refine ⟨hp, l1, l2, hl, ?_⟩
  intro a ha
  simpa using hno a ha

theorem findGame_none_of_count {l : List (String × GameSession)} {id : String}
    (h : memberCount l id = 0) : findGame l id = none := by
  unfold findGame
  apply List.find?_eq_none.2
  intro e he
  simp [memberCount_zero h e he]

/-- C14. When the waiting slot is empty, `handleFindPartner` for `P` puts `P` in
the waiting slot, leaves the session set (and the player set) unchanged, sends
nothing and returns without a fault. -/
theorem first_request_waits (s : Server) (P : Player) (now : Int)
    (h : s.waitingPlayer = none) :
    (handleFindPartner s P now).server.waitingPlayer = some P ∧
    (handleFindPartner s P now).server.gameSessions = s.gameSessions ∧
    (handleFindPartner s P now).server.players = s.players ∧
    (handleFindPartner s P now).sent = [] ∧
    (handleFindPartner s P now).fault = false := by
  simp [handleFindPartner, h]

/-- C14 on the empty registry: alice waits and no session exists. -/
theorem first_request_waits_witness :
    NewServer.waitingPlayer = none ∧
    (handleFindPartner NewServer alice 10).server.waitingPlayer = some alice ∧
    (handleFindPartner NewServer alice 10).server.gameSessions = [] ∧
    (handleFindPartner NewServer alice 10).sent = [] :=
  ⟨rfl, (first_request_waits NewServer alice 10 rfl).1, by decide, by decide⟩

/-- C17. For a participant `P` who is a member of no live session,
`handleMoveSubmitted` with any event returns the registry as it was (waiting
slot, session set with every move mapping, player set), sends nothing and does
not fault. -/
theorem submit_without_session (s : Server) (P : Player) (ev : Event)
    (h : memberCount s.gameSessions P.ID = 0) :
    handleMoveSubmitted s P ev = { server := s, sent := [], fault := false } := by
  unfold handleMoveSubmitted
  rw [findGame_none_of_count h]

/-- C17 for carol while only alice and bob are paired. -/
theorem submit_without_session_witness :
    memberCount alicePlaysBob.gameSessions carol.ID = 0 ∧
    handleMoveSubmitted alicePlaysBob carol (moveEvent Rock) =
      { server := alicePlaysBob, sent := [], fault := false } :=
  ⟨by decide, submit_without_session alicePlaysBob carol (moveEvent Rock) (by decide)⟩

/-- C18. `handleMoveSubmitted` and `handlePlayAgain` leave the waiting slot, the
player set, the session identifiers and the members of every session as they
were.  They change at most one entry of the session map, one that has `P` as a
member, and keep its identifier and members; `handlePlayAgain` keeps its move
mapping too, so `handleMoveSubmitted` changes the move mapping of at most that
one session. -/
theorem in_session_frame (s : Server) (P : Player) (ev : Event) :
    ((handleMoveSubmitted s P ev).server.waitingPlayer = s.waitingPlayer ∧
     (handleMoveSubmitted s P ev).server.players = s.players ∧
     sameMembers (handleMoveSubmitted s P ev).server.gameSessions s.gameSessions ∧
     ((handleMoveSubmitted s P ev).server.gameSessions = s.gameSessions ∨
      ∃ l1 l2 key g g', s.gameSessions = l1 ++ (key, g) :: l2 ∧
        (handleMoveSubmitted s P ev).server.gameSessions = l1 ++ (key, g') :: l2 ∧
        inGame g P.ID = true ∧ g'.ID = g.ID ∧ g'.Player1 = g.Player1 ∧
        g'.Player2 = g.Player2)) ∧
    ((handlePlayAgain s P).server.waitingPlayer = s.waitingPlayer ∧
     (handlePlayAgain s P).server.players = s.players ∧
     sameMembers (handlePlayAgain s P).server.gameSessions s.gameSessions ∧
     ((handlePlayAgain s P).server.gameSessions = s.gameSessions ∨
      ∃ l1 l2 key g g', s.gameSessions = l1 ++ (key, g) :: l2 ∧
        (handlePlayAgain s P).server.gameSessions = l1 ++ (key, g') :: l2 ∧
        inGame g P.ID = true ∧ g'.ID = g.ID ∧ g'.Player1 = g.Player1 ∧
        g'.Player2 = g.Player2 ∧ g'.Moves = g.Moves)) := by
  constructor
  · refine ⟨(handleMoveSubmitted_frame s P ev).2, ?_, (handleMoveSubmitted_frame s P ev).1, ?_⟩
    · unfold handleMoveSubmitted
      cases findGame s.gameSessions P.ID with
      | none => rfl
      | some e =>
        simp only
        split_ifs <;> rfl
    · cases hf : findGame s.gameSessions P.ID with
      | none =>
        left
        simp [handleMoveSubmitted, hf]
      | some e =>
        right
        obtain ⟨key, g⟩ := e
        obtain ⟨hin, l1, l2, hl, hno⟩ := findGame_split hf
        rw [handleMoveSubmitted_at s l1 l2 key g P ev hl hno hin]
        split_ifs
        · exact ⟨l1, l2, key, g, _, hl, rfl, hin,
            by obtain ⟨i, st, p1, p2, mv⟩ := g; cases p1 <;> cases p2 <;> rfl,
            (evaluateRound_members _).1, (evaluateRound_members _).2⟩
        · exact ⟨l1, l2, key, g, _, hl, rfl, hin, rfl, rfl, rfl⟩
  · refine ⟨(handlePlayAgain_frame s P).2, ?_, (handlePlayAgain_frame s P).1, ?_⟩
    · unfold handlePlayAgain
      cases findGame s.gameSessions P.ID with
      | none => rfl
      | some e =>
        obtain ⟨key, g⟩ := e
        obtain ⟨i, st, p1, p2, mv⟩ := g
        cases p1 <;> cases p2 <;> rfl
    · cases hf : findGame s.gameSessions P.ID with
      | none =>
        left
        simp [handlePlayAgain, hf]
      | some e =>
        right
        obtain ⟨key, g⟩ := e
        obtain ⟨hin, l1, l2, hl, hno⟩ := findGame_split hf
        have hs := storeGame_at l1 l2 (key, g) P.ID
          { g with State := ServerState.ServerCollectingMoves } hno hin
        refine ⟨l1, l2, key, g, { g with State := ServerState.ServerCollectingMoves }, hl, ?_,
          hin, rfl, rfl, rfl, rfl⟩
        unfold handlePlayAgain
        rw [hf]
        simp only
        rw [hl, hs]
        obtain ⟨i, st, p1, p2, mv⟩ := g
        cases p1 <;> cases p2 <;> rfl

/-- C20. For distinct move values `a`, `b` (arbitrary strings) of which at least
one is not rock, paper or scissors, `determineResult` is "lose" in both
directions; it is "win" only when both arguments are among the three choices;
and its result is always one of "win", "lose", "tie". -/
theorem determineResult_outside (a b : Move) :
    (a ≠ b → (a ∉ choices ∨ b ∉ choices) →
      determineResult a b = "lose" ∧ determineResult b a = "lose") ∧
    (determineResult a b = "win" → a ∈ choices ∧ b ∈ choices) ∧
    (determineResult a b = "win" ∨ determineResult a b = "lose" ∨
      determineResult a b = "tie") := by
  refine ⟨?_, ?_, ?_⟩
  · intro hne hout
    have hne' : b ≠ a := Ne.symm hne
    unfold determineResult
    rw [if_neg hne, if_neg hne']
    simp only [choices, List.mem_cons, List.mem_singleton, List.not_mem_nil, or_false,
      not_or] at hout
    constructor
    · split_ifs <;> first | rfl | (exfalso; rcases hout with h | h <;> simp_all)
    · split_ifs <;> first | rfl | (exfalso; rcases hout with h | h <;> simp_all)
  · intro h
    unfold determineResult at h
    simp only [choices, List.mem_cons, List.mem_singleton, List.not_mem_nil, or_false]
    split_ifs at h <;> first | (exfalso; revert h; decide) | simp_all
  · unfold determineResult
    split_ifs <;> simp

/-- C20 at rock against a string that is no choice: both directions lose. -/
theorem determineResult_outside_witness :
    ("rock" : Move) ≠ "banana" ∧ ("banana" : Move) ∉ choices ∧
    determineResult "rock" "banana" = "lose" ∧ determineResult "banana" "rock" = "lose" :=
  ⟨by decide, by decide,
   (determineResult_outside "rock" "banana").1 (by decide) (Or.inr (by decide))⟩

/-! ## The move mapping -/

theorem handlePlayAgain_at (s : Server) (l1 l2 : List (String × GameSession))
    (key : String) (g : GameSession) (X : Player)
    (hl : s.gameSessions = l1 ++ (key, g) :: l2)
    (hno : ∀ a ∈ l1, inGame a.2 X.ID = false) (hin : inGame g X.ID = true) :
    (handlePlayAgain s X).server =
      { s with gameSessions :=
          l1 ++ (key, { g with State := ServerState.ServerCollectingMoves }) :: l2 } ∧
    ∀ p1 p2, g.Player1 = some p1 → g.Player2 = some p2 →
      (handlePlayAgain s X).sent = [(p1, startEvent), (p2, startEvent)] ∧
      (handlePlayAgain s X).fault = false := by
  have hf := findGame_at l1 l2 (key, g) X.ID hno hin
  have hs := storeGame_at l1 l2 (key, g) X.ID
    { g with State := ServerState.ServerCollectingMoves } hno hin
  unfold handlePlayAgain
  rw [hl, hf]
  simp only
  rw [hs]
  obtain ⟨i, st, q1, q2, mv⟩ := g
  constructor
  · cases q1 <;> cases q2 <;> rfl
  · intro p1 p2 h1 h2
    cases h1
    cases h2
    exact ⟨rfl, rfl⟩

theorem length_mapSet_le {β : Type} (m : List (String × β)) (k : String) (v : β) :
    (mapSet m k v).length ≤ m.length + 1 := by
  induction m with
  | nil => simp [mapSet]
  | cons hd tl ih =>
    obtain ⟨k', v'⟩ := hd
    unfold mapSet
    split_ifs
    · simp
    · simpa using ih

theorem bothPresent_members {g : GameSession} (h : bothPresent g) :
    ∃ p1 p2, g.Player1 = some p1 ∧ g.Player2 = some p2 := by
  obtain ⟨i, st, q1, q2, mv⟩ := g
  cases q1 <;> cases q2 <;> simp [bothPresent] at h
  exact ⟨_, _, rfl, rfl⟩

theorem movesOK_step (s : Server) (op : Op)
    (hb : ∀ e ∈ s.gameSessions, bothPresent e.2) (hm : ∀ e ∈ s.gameSessions, movesOK e.2) :
    ∀ e ∈ (op.run s).server.gameSessions, movesOK e.2 := by
  intro e he
  cases op with
  | findPartner p now =>
    simp only [Op.run] at he
    cases hw : s.waitingPlayer with
    | none =>
      rw [handleFindPartner_of_empty s p now hw] at he
      exact hm e he
    | some w =>
      rw [handleFindPartner_of_waiting s w p now hw] at he
      rcases mem_mapSet he with rfl | h
      · exact ⟨Nat.zero_le _, fun kv hkv => by cases hkv⟩
      · exact hm e h
  | moveSubmitted p ev =>
    simp only [Op.run] at he
    cases hf : findGame s.gameSessions p.ID with
    | none =>
      simp only [handleMoveSubmitted, hf] at he
      exact hm e he
    | some e0 =>
      obtain ⟨key, g⟩ := e0
      obtain ⟨hin, l1, l2, hl, hno⟩ := findGame_split hf
      have hg : (key, g) ∈ s.gameSessions := by rw [hl]; simp
      have hold : ∀ a, a ∈ l1 ∨ a ∈ l2 → a ∈ s.gameSessions := by
        intro a ha
        rw [hl]
        rcases ha with ha | ha
        · exact List.mem_append_left _ ha
        · exact List.mem_append_right _ (List.mem_cons_of_mem _ ha)
      obtain ⟨p1, p2, h1, h2⟩ := bothPresent_members (hb _ hg)
      rw [handleMoveSubmitted_at s l1 l2 key g p ev hl hno hin] at he
      split_ifs at he with hlen
      · have hev := evaluateRound_of_members
          { g with Moves := mapSet g.Moves p.ID (decodeMoveData ev.Data),
                   State := ServerState.ServerEvaluatingRound } p1 p2 h1 h2
        rw [hev] at he
        rcases List.mem_append.1 he with h | h
        · exact hm e (hold e (Or.inl h))
        · rcases List.mem_cons.1 h with rfl | h
          · exact ⟨Nat.zero_le _, fun kv hkv => by cases hkv⟩
          · exact hm e (hold e (Or.inr h))
      · rcases List.mem_append.1 he with h | h
        · exact hm e (hold e (Or.inl h))
        · rcases List.mem_cons.1 h with rfl | h
          · have hmg : movesOK g := hm _ hg
            have hle := length_mapSet_le g.Moves p.ID (decodeMoveData ev.Data)
            have hin' : inGame g p.ID = true := hin
            refine ⟨?_, ?_⟩
            · show (mapSet g.Moves p.ID (decodeMoveData ev.Data)).length ≤ 1
              have h1' : g.Moves.length ≤ 1 := hmg.1
              omega
            · intro kv hkv
              have hkv' : kv ∈ mapSet g.Moves p.ID (decodeMoveData ev.Data) := hkv
              have hc : inGame { g with Moves := mapSet g.Moves p.ID (decodeMoveData ev.Data) }
                  kv.1 = inGame g kv.1 := inGame_congr rfl rfl kv.1
              show inGame { g with Moves := mapSet g.Moves p.ID (decodeMoveData ev.Data) } kv.1
                = true
              rw [hc]
              rcases mem_mapSet hkv' with rfl | h'
              · exact hin'
              · exact hmg.2 kv h'
          · exact hm e (hold e (Or.inr h))
  | playAgain p =>
    simp only [Op.run] at he
    cases hf : findGame s.gameSessions p.ID with
    | none =>
      simp only [handlePlayAgain, hf] at he
      exact hm e he
    | some e0 =>
      obtain ⟨key, g⟩ := e0
      obtain ⟨hin, l1, l2, hl, hno⟩ := findGame_split hf
      have hg : (key, g) ∈ s.gameSessions := by rw [hl]; simp
      rw [(handlePlayAgain_at s l1 l2 key g p hl hno hin).1] at he
      rcases List.mem_append.1 he with h | h
      · exact hm e (by rw [hl]; exact List.mem_append_left _ h)
      · rcases List.mem_cons.1 h with rfl | h
        · have hmg : movesOK g := hm _ hg
          exact ⟨hmg.1, hmg.2⟩
        · exact hm e (by rw [hl]; exact List.mem_append_right _ (List.mem_cons_of_mem _ h))
  | leaveGame p =>
    exact hm e ((handleLeaveGame_sessions s p).subset he)

theorem movesOK_of_reachable (s : Server) (h : Reachable s) :
    ∀ e ∈ s.gameSessions, movesOK e.2 := by
  have hI : (∀ e ∈ s.gameSessions, bothPresent e.2) ∧ ∀ e ∈ s.gameSessions, movesOK e.2 := by
    refine ReachableVia.invariant
      (fun s => (∀ e ∈ s.gameSessions, bothPresent e.2) ∧ ∀ e ∈ s.gameSessions, movesOK e.2)
      ?_ ?_ ?_ ?_ s h
    · constructor <;> intro e he <;> cases he
    · intro s op hinv _
      refine ⟨?_, movesOK_step s op hinv.1 hinv.2⟩
      refine sessions_forall_step bothPresent ?_ s op hinv.1 ?_
      · intro g g' h1 h2 hg
        unfold bothPresent at hg ⊢
        rw [h1, h2]
        exact hg
      · intro p now w _ _
        exact trivial
    · intro s l hinv hp
      exact ⟨fun e he => hinv.1 e (hp.subset he), fun e he => hinv.2 e (hp.subset he)⟩
    · intro s pl hinv
      exact hinv
  exact hI.2

/-- C11. In every registry state reachable from the empty registry, every
session's move mapping has at most 2 entries (in fact at most 1) and each of its
keys is the identifier of a member of that session; and when an operation sends
a `game_results` event, the operation is a move submission, the recipient is a
member of the session the submission was recorded in, and that session is left
with an empty move mapping (the other entries of the session map are as before). -/
theorem move_mapping_invariant (s : Server) (h : Reachable s) :
    (∀ e ∈ s.gameSessions,
      e.2.Moves.length ≤ 2 ∧ e.2.Moves.length ≤ 1 ∧
      ∀ kv ∈ e.2.Moves, inGame e.2 kv.1 = true) ∧
    ∀ (op : Op) (q : Player) (evt : Event), (q, evt) ∈ (op.run s).sent →
      evt.Typ = GameResultsEvent →
      ∃ P ev l1 l2 key g, op = Op.moveSubmitted P ev ∧
        s.gameSessions = l1 ++ (key, g) :: l2 ∧
        (g.Player1 = some q ∨ g.Player2 = some q) ∧
        (op.run s).server.gameSessions =
          l1 ++ (key, { g with Moves := [], State := ServerState.ServerGameSession }) :: l2 := by
  constructor
  · intro e he
    have := movesOK_of_reachable s h e he
    exact ⟨by have := this.1; omega, this.1, this.2⟩
  · intro op q evt hsent htyp
    cases op with
    | findPartner p now =>
      exfalso
      simp only [Op.run] at hsent
      cases hw : s.waitingPlayer with
      | none =>
        rw [handleFindPartner_of_empty s p now hw] at hsent
        cases hsent
      | some w =>
        rw [handleFindPartner_of_waiting s w p now hw] at hsent
        simp only [List.mem_cons, Prod.mk.injEq, List.mem_singleton, List.not_mem_nil,
          or_false] at hsent
        rcases hsent with ⟨-, rfl⟩ | ⟨-, rfl⟩ | ⟨-, rfl⟩ | ⟨-, rfl⟩ <;>
          first
            | exact absurd (show PartnerFoundEvent = GameResultsEvent from htyp) (by decide)
            | exact absurd (show StartGameEvent = GameResultsEvent from htyp) (by decide)
    | moveSubmitted p ev =>
      simp only [Op.run] at hsent ⊢
      cases hf : findGame s.gameSessions p.ID with
      | none =>
        simp only [handleMoveSubmitted, hf] at hsent
        cases hsent
      | some e0 =>
        obtain ⟨key, g⟩ := e0
        obtain ⟨hin, l1, l2, hl, hno⟩ := findGame_split hf
        have hg : (key, g) ∈ s.gameSessions := by rw [hl]; simp
        obtain ⟨p1, p2, h1, h2⟩ := bothPresent_members (bothPresent_of_reachable _ s h _ hg)
        have hev := evaluateRound_of_members
          { g with Moves := mapSet g.Moves p.ID (decodeMoveData ev.Data),
                   State := ServerState.ServerEvaluatingRound } p1 p2 h1 h2
        rw [handleMoveSubmitted_at s l1 l2 key g p ev hl hno hin] at hsent ⊢
        split_ifs at hsent ⊢ with hlen
        · rw [hev] at hsent ⊢
          refine ⟨p, ev, l1, l2, key, g, rfl, hl, ?_, rfl⟩
          simp only [List.mem_cons, Prod.mk.injEq, List.mem_singleton, List.not_mem_nil,
            or_false] at hsent
          rcases hsent with ⟨rfl, -⟩ | ⟨rfl, -⟩
          · exact Or.inl h1
          · exact Or.inr h2
        · cases hsent
    | playAgain p =>
      exfalso
      simp only [Op.run] at hsent
      cases hf : findGame s.gameSessions p.ID with
      | none =>
        simp only [handlePlayAgain, hf] at hsent
        cases hsent
      | some e0 =>
        obtain ⟨key, g⟩ := e0
        obtain ⟨hin, l1, l2, hl, hno⟩ := findGame_split hf
        have hg : (key, g) ∈ s.gameSessions := by rw [hl]; simp
        obtain ⟨p1, p2, h1, h2⟩ := bothPresent_members (bothPresent_of_reachable _ s h _ hg)
        rw [((handlePlayAgain_at s l1 l2 key g p hl hno hin).2 p1 p2 h1 h2).1] at hsent
        simp only [List.mem_cons, Prod.mk.injEq, List.mem_singleton, List.not_mem_nil,
          or_false] at hsent
        rcases hsent with ⟨-, rfl⟩ | ⟨-, rfl⟩ <;>
          exact absurd (show StartGameEvent = GameResultsEvent from htyp) (by decide)
    | leaveGame p =>
      exfalso
      simp only [Op.run, handleLeaveGame] at hsent
      cases hsent

/-- C11 after alice and bob played one round: `game_20` has an empty move
mapping again. -/
theorem move_mapping_invariant_witness :
    Reachable roundPlayed ∧
    roundPlayed.gameSessions =
      [("game_20", { freshGame with State := ServerState.ServerGameSession })] ∧
    (∀ e ∈ roundPlayed.gameSessions, e.2.Moves.length ≤ 2) := by
  have hr : Reachable roundPlayed :=
    reachable_runOps NewServer
      [Op.findPartner alice 10, Op.findPartner bob 20, Op.moveSubmitted alice (moveEvent Rock),
       Op.moveSubmitted bob (moveEvent Scissors)] ReachableVia.init
  exact ⟨hr, by decide, fun e he => ((move_mapping_invariant roundPlayed hr).1 e he).1⟩

/-! ## Leaving and disconnecting -/

/-- C12. The code after the read loop only deletes the player from the player
map.  With the connected alice in the waiting slot, disconnecting her empties
the player map but leaves her in the waiting slot, where `handleLeaveGame`
empties it; with alice paired with bob, disconnecting her leaves `game_20` in
the session set, where `handleLeaveGame` removes it. -/
theorem disconnect_skips_cleanup :
    (connect NewServer 1 1).2 = alice ∧ aliceConnected.players = [("player_1", alice)] ∧
    Reachable aliceConnectedWaiting ∧
    aliceConnectedWaiting.waitingPlayer = some alice ∧
    (disconnect aliceConnectedWaiting alice.ID).players = [] ∧
    (disconnect aliceConnectedWaiting alice.ID).waitingPlayer = some alice ∧
    (handleLeaveGame aliceConnectedWaiting alice).server.waitingPlayer = none ∧
    alicePlaysBob.gameSessions = [("game_20", freshGame)] ∧
    (disconnect alicePlaysBob alice.ID).gameSessions = [("game_20", freshGame)] ∧
    (handleLeaveGame alicePlaysBob alice).server.gameSessions = [] := by
  refine ⟨by decide, by decide, ?_, by decide, by decide, by decide, by decide, by decide,
    by decide, by decide⟩
  exact ReachableVia.step (Op.findPartner alice 10)
    (ReachableVia.connect 1 1 ReachableVia.init) trivial

theorem mapGet_mapSet_self {β : Type} (zero : β) (m : List (String × β)) (k : String) (v : β) :
    mapGet zero (mapSet m k v) k = v := by
  induction m with
  | nil => simp [mapSet, mapGet]
  | cons hd tl ih =>
    obtain ⟨k', v'⟩ := hd
    unfold mapSet
    split_ifs with hk
    · simp [mapGet]
    · simp only [mapGet] at ih ⊢
      simp only [List.find?_cons, hk, decide_False]
      exact ih

/-- C13. When `A` is a member of the session bound to `key` and that session is
the only one with `A` or `B` as a member, `handleLeaveGame` for `A` sends
nothing, returns, and leaves the session map without the binding of `key` and
with every other entry as before (for a map with distinct keys: exactly the
one session is gone); a following `handleMoveSubmitted` from `B`, in whatever
order the session map presents, changes nothing and sends nothing.  And when
the waiting slot holds `W`, `handleLeaveGame` for `W` empties it. -/
theorem leave_tears_down (s : Server) (key : String) (g : GameSession) (A B : Player)
    (hA : inGame g A.ID = true) (hsole : gamesOf s.gameSessions A B = [(key, g)]) :
    (handleLeaveGame s A).sent = [] ∧ (handleLeaveGame s A).fault = false ∧
    (handleLeaveGame s A).server.gameSessions =
      s.gameSessions.filter (fun e => !decide (e.1 = key)) ∧
    (key, g) ∉ (handleLeaveGame s A).server.gameSessions ∧
    ((s.gameSessions.map Prod.fst).Nodup →
      s.gameSessions.Perm ((key, g) :: (handleLeaveGame s A).server.gameSessions)) ∧
    (∀ l ev, l.Perm (handleLeaveGame s A).server.gameSessions →
      handleMoveSubmitted (reordered (handleLeaveGame s A).server l) B ev =
        { server := reordered (handleLeaveGame s A).server l, sent := [], fault := false }) ∧
    ∀ (t : Server) (W : Player), t.waitingPlayer = some W →
      (handleLeaveGame t W).server.waitingPlayer = none := by
  obtain ⟨l1, l2, hl, h1, h2⟩ := gamesOf_split hsole
  have hf : findGame s.gameSessions A.ID = some (key, g) := by
    rw [hl]
    exact findGame_at l1 l2 (key, g) A.ID (fun a ha => (h1 a ha).1) hA
  have hres : (handleLeaveGame s A).server.gameSessions =
      s.gameSessions.filter (fun e => !decide (e.1 = key)) := by
    simp only [handleLeaveGame, hf, mapDelete]
  have hnotB : ∀ e ∈ (handleLeaveGame s A).server.gameSessions, inGame e.2 B.ID = false := by
    intro e he
    rw [hres, hl] at he
    obtain ⟨hmem, hkey⟩ := List.mem_filter.1 he
    rcases List.mem_append.1 hmem with h | h
    · exact (h1 e h).2
    · rcases List.mem_cons.1 h with rfl | h
      · simp at hkey
      · exact (h2 e h).2
  refine ⟨rfl, rfl, hres, ?_, ?_, ?_, ?_⟩
  · intro hmem
    rw [hres] at hmem
    have := (List.mem_filter.1 hmem).2
    simp at this
  · intro hnd
    rw [hl, List.map_append, List.map_cons] at hnd
    have hnd' := List.nodup_middle.1 hnd
    have hk : key ∉ l1.map Prod.fst ++ l2.map Prod.fst := (List.nodup_cons.1 hnd').1
    have e1 : l1.filter (fun e => !decide (e.1 = key)) = l1 := by
      apply List.filter_eq_self.2
      intro a ha
      have : a.1 ≠ key := fun hh =>
        hk (List.mem_append_left _ (hh ▸ List.mem_map_of_mem Prod.fst ha))
      simp [this]
    have e2 : l2.filter (fun e => !decide (e.1 = key)) = l2 := by
      apply List.filter_eq_self.2
      intro a ha
      have : a.1 ≠ key := fun hh =>
        hk (List.mem_append_right _ (hh ▸ List.mem_map_of_mem Prod.fst ha))
      simp [this]
    rw [hres]
    conv_rhs => rw [hl]
    rw [List.filter_append, List.filter_cons, e1, e2]
    simp only [decide_True, Bool.not_true]
    rw [hl]
    exact List.perm_middle
  · intro l ev hp
    have hnone : findGame l B.ID = none := by
      unfold findGame
      apply List.find?_eq_none.2
      intro e he
      simp [hnotB e (hp.subset he)]
    simp only [handleMoveSubmitted, reordered, hnone]
  · intro t W hW
    simp [handleLeaveGame, hW]

/-- C13 with alice leaving `game_20`: the session set is empty and bob's move
is dropped. -/
theorem leave_tears_down_witness :
    inGame freshGame alice.ID = true ∧
    gamesOf alicePlaysBob.gameSessions alice bob = [("game_20", freshGame)] ∧
    (handleLeaveGame alicePlaysBob alice).server.gameSessions = [] ∧
    (handleMoveSubmitted (handleLeaveGame alicePlaysBob alice).server bob (moveEvent Rock)).sent
      = [] :=
  ⟨by decide, by decide, by decide,
   by
    have h := (leave_tears_down alicePlaysBob "game_20" freshGame alice bob (by decide)
      (by decide)).2.2.2.2.2.1 (handleLeaveGame alicePlaysBob alice).server.gameSessions
      (moveEvent Rock) (List.Perm.refl _)
    have hr : reordered (handleLeaveGame alicePlaysBob alice).server
        (handleLeaveGame alicePlaysBob alice).server.gameSessions =
        (handleLeaveGame alicePlaysBob alice).server := rfl
    rw [hr] at h
    rw [h]⟩

/-- C15 (amended). A `move_submitted` event is never dropped for its payload.
When the handler finds the session bound to `key` for `P`, the move decoded
from the payload (the empty string for a missing payload or one of another
shape, the carried string otherwise, whether or not it is one of the three
choices) becomes `P`'s entry of that session's move mapping; if the mapping
then has two entries the round is resolved with it and `game_results` are sent
to both members, otherwise nothing is sent. -/
theorem undecodable_choice_recorded (s : Server) (key : String) (g : GameSession)
    (P : Player) (ev : Event) (hfind : findGame s.gameSessions P.ID = some (key, g)) :
    decodeMoveData Payload.absent = "" ∧ decodeMoveData Payload.other = "" ∧
    (∀ m, decodeMoveData (Payload.moveData m) = m) ∧
    mapGet "" (mapSet g.Moves P.ID (decodeMoveData ev.Data)) P.ID = decodeMoveData ev.Data ∧
    ∃ l1 l2, s.gameSessions = l1 ++ (key, g) :: l2 ∧
      ((mapSet g.Moves P.ID (decodeMoveData ev.Data)).length ≠ 2 →
        (handleMoveSubmitted s P ev).sent = [] ∧
        (handleMoveSubmitted s P ev).server.gameSessions =
          l1 ++ (key, { g with Moves := mapSet g.Moves P.ID (decodeMoveData ev.Data) }) :: l2) ∧
      ((mapSet g.Moves P.ID (decodeMoveData ev.Data)).length = 2 →
        ∀ p1 p2, g.Player1 = some p1 → g.Player2 = some p2 →
          (handleMoveSubmitted s P ev).sent =
            [(p1, resultsEvent
                (mapGet "" (mapSet g.Moves P.ID (decodeMoveData ev.Data)) p1.ID)
                (mapGet "" (mapSet g.Moves P.ID (decodeMoveData ev.Data)) p2.ID)),
             (p2, resultsEvent
                (mapGet "" (mapSet g.Moves P.ID (decodeMoveData ev.Data)) p2.ID)
                (mapGet "" (mapSet g.Moves P.ID (decodeMoveData ev.Data)) p1.ID))] ∧
          (handleMoveSubmitted s P ev).server.gameSessions =
            l1 ++ (key, { g with Moves := [], State := ServerState.ServerGameSession }) :: l2) := by
  refine ⟨rfl, rfl, fun _ => rfl, mapGet_mapSet_self _ _ _ _, ?_⟩
  obtain ⟨hin, l1, l2, hl, hno⟩ := findGame_split hfind
  refine ⟨l1, l2, hl, ?_, ?_⟩
  · intro hlen
    rw [handleMoveSubmitted_at s l1 l2 key g P ev hl hno hin, if_neg hlen]
    exact ⟨rfl, rfl⟩
  · intro hlen p1 p2 hp1 hp2
    have hev := evaluateRound_of_members
      { g with Moves := mapSet g.Moves P.ID (decodeMoveData ev.Data),
               State := ServerState.ServerEvaluatingRound } p1 p2 hp1 hp2
    rw [handleMoveSubmitted_at s l1 l2 key g P ev hl hno hin, if_pos hlen, hev]
    exact ⟨rfl, rfl⟩

/-- C15 with alice, paired with bob, sending `move_submitted` without payload:
the empty string is recorded as her move. -/
theorem undecodable_choice_recorded_witness :
    findGame alicePlaysBob.gameSessions alice.ID = some ("game_20", freshGame) ∧
    mapGet "" (mapSet freshGame.Moves alice.ID (decodeMoveData emptyMoveEvent.Data)) alice.ID
      = "" :=
  ⟨by decide,
   (undecodable_choice_recorded alicePlaysBob "game_20" freshGame alice emptyMoveEvent
      (by decide)).2.2.2.1⟩

/-- C15 as stated fails. Alice, paired with bob, sends `move_submitted` without
payload: the move mapping of `game_20` changes, it records the empty string for
her; a move string outside the three values is recorded as it is; and when bob
then submits rock, `game_results` carrying the empty string are sent. -/
theorem undecodable_choice_not_dropped :
    alicePlaysBob.gameSessions = [("game_20", freshGame)] ∧ freshGame.Moves = [] ∧
    (handleMoveSubmitted alicePlaysBob alice emptyMoveEvent).server.gameSessions =
      [("game_20", { freshGame with Moves := [("player_1", "")] })] ∧
    (handleMoveSubmitted alicePlaysBob alice (moveEvent "banana")).server.gameSessions =
      [("game_20", { freshGame with Moves := [("player_1", "banana")] })] ∧
    ("banana" : Move) ∉ choices ∧ ("" : Move) ∉ choices ∧
    (handleMoveSubmitted (handleMoveSubmitted alicePlaysBob alice emptyMoveEvent).server bob
        (moveEvent Rock)).sent =
      [(alice, { Typ := "game_results", Data := Payload.gameResults "" "rock" "lose" }),
       (bob, { Typ := "game_results", Data := Payload.gameResults "rock" "" "lose" })] := by
  refine ⟨by decide, by decide, by decide, by decide, by decide, by decide, by decide⟩

/-! ## Playing again -/

theorem handlePlayAgain_none (t : Server) (P : Player)
    (h : memberCount t.gameSessions P.ID = 0) :
    handlePlayAgain t P = { server := t, sent := [], fault := false } := by
  unfold handlePlayAgain
  rw [findGame_none_of_count h]

/-- C16 (amended). In the only live session of two members `A` and `B` with
different identifiers and an empty move mapping, `handlePlayAgain` by either
member sends `start_game` to `A` and to `B`, leaves the waiting slot and every
entry of the session map as they were except that this session's `State`
becomes collecting_moves (its move mapping stays empty), and a following pair
of submissions `a`, `b`, in either order, resolves to `determineResult a b` for
`A` and `determineResult b a` for `B`.  For a participant in no live session
`handlePlayAgain` changes nothing and sends nothing. -/
theorem play_again_restarts (s : Server) (key : String) (g : GameSession) (A B X : Player)
    (a b : Move) (h1 : g.Player1 = some A) (h2 : g.Player2 = some B) (hAB : A.ID ≠ B.ID)
    (hmoves : g.Moves = []) (hsole : gamesOf s.gameSessions A B = [(key, g)])
    (hX : X = A ∨ X = B) :
    (handlePlayAgain s X).sent = [(A, startEvent), (B, startEvent)] ∧
    (handlePlayAgain s X).fault = false ∧
    (handlePlayAgain s X).server.waitingPlayer = s.waitingPlayer ∧
    (∃ l1 l2, s.gameSessions = l1 ++ (key, g) :: l2 ∧
      (handlePlayAgain s X).server.gameSessions =
        l1 ++ (key, { g with State := ServerState.ServerCollectingMoves }) :: l2) ∧
    ({ g with State := ServerState.ServerCollectingMoves } : GameSession).Moves = [] ∧
    (∀ l, l.Perm (handleMoveSubmitted (handlePlayAgain s X).server A (moveEvent a)).server.gameSessions →
      (handleMoveSubmitted (handlePlayAgain s X).server A (moveEvent a)).sent = [] ∧
      (handleMoveSubmitted
          (reordered (handleMoveSubmitted (handlePlayAgain s X).server A (moveEvent a)).server l)
          B (moveEvent b)).sent = [(A, resultsEvent a b), (B, resultsEvent b a)]) ∧
    (∀ l, l.Perm (handleMoveSubmitted (handlePlayAgain s X).server B (moveEvent b)).server.gameSessions →
      (handleMoveSubmitted (handlePlayAgain s X).server B (moveEvent b)).sent = [] ∧
      (handleMoveSubmitted
          (reordered (handleMoveSubmitted (handlePlayAgain s X).server B (moveEvent b)).server l)
          A (moveEvent a)).sent = [(A, resultsEvent a b), (B, resultsEvent b a)]) ∧
    ∀ (t : Server) (P : Player), memberCount t.gameSessions P.ID = 0 →
      handlePlayAgain t P = { server := t, sent := [], fault := false } := by
  obtain ⟨l1, l2, hl, hn1, hn2⟩ := gamesOf_split hsole
  have hin : inGame g X.ID = true := by
    rcases hX with rfl | rfl <;> simp [inGame, h1, h2]
  have hno : ∀ e ∈ l1, inGame e.2 X.ID = false := by
    intro e he
    rcases hX with rfl | rfl
    · exact (hn1 e he).1
    · exact (hn1 e he).2
  obtain ⟨hsrv, hsent⟩ := handlePlayAgain_at s l1 l2 key g X hl hno hin
  obtain ⟨hs1, hs2⟩ := hsent A B h1 h2
  have hsess : (handlePlayAgain s X).server.gameSessions =
      l1 ++ (key, { g with State := ServerState.ServerCollectingMoves }) :: l2 := by
    rw [hsrv]
  have hsole' : gamesOf (handlePlayAgain s X).server.gameSessions A B =
      [(key, { g with State := ServerState.ServerCollectingMoves })] := by
    rw [hsess]
    apply gamesOf_at l1 l2 A B _ hn1 hn2
    simp [inGame, h1]
  refine ⟨hs1, hs2, by rw [hsrv], ⟨l1, l2, hl, hsess⟩, hmoves, ?_, ?_, handlePlayAgain_none⟩
  · intro l hp
    obtain ⟨e1, -, e3, -, -⟩ := submit_pair (handlePlayAgain s X).server key
      { g with State := ServerState.ServerCollectingMoves } A B A B a b h1 h2 hAB (Or.inl rfl)
      (Or.inr rfl) hmoves hsole' l hp
    have hg := mapGet_pair A B a b hAB
    rw [hg.1, hg.2] at e3
    exact ⟨e1, e3⟩
  · intro l hp
    obtain ⟨e1, -, e3, -, -⟩ := submit_pair (handlePlayAgain s X).server key
      { g with State := ServerState.ServerCollectingMoves } A B B A b a h1 h2 (Ne.symm hAB)
      (Or.inr rfl) (Or.inl rfl) hmoves hsole' l hp
    have hg : mapGet "" [(B.ID, b), (A.ID, a)] A.ID = a ∧
        mapGet "" [(B.ID, b), (A.ID, a)] B.ID = b := by
      simp [mapGet, Ne.symm hAB]
    rw [hg.1, hg.2] at e3
    exact ⟨e1, e3⟩

/-- C16 after the round of alice and bob: bob asks to play again and both are
sent `start_game`. -/
theorem play_again_restarts_witness :
    restingGame.Player1 = some alice ∧ restingGame.Player2 = some bob ∧ alice.ID ≠ bob.ID ∧
    restingGame.Moves = [] ∧
    gamesOf roundPlayed.gameSessions alice bob = [("game_20", restingGame)] ∧
    (handlePlayAgain roundPlayed bob).sent = [(alice, startEvent), (bob, startEvent)] :=
  ⟨by decide, by decide, by decide, by decide, by decide,
   (play_again_restarts roundPlayed "game_20" restingGame alice bob bob Paper Rock (by decide)
      (by decide) (by decide) (by decide) (by decide) (Or.inr rfl)).1⟩

/-- C16 as stated fails. After a round in `game_20` alice was also paired with
carol in `game_40`; in the reachable registry where the session map presents
`game_40` first, `handlePlayAgain` by alice, a member of the just resolved
`game_20`, sends `start_game` to alice and carol and nothing to bob. -/
theorem play_again_misses_partner :
    Reachable aliceRejoined ∧
    aliceRejoined.gameSessions =
      [("game_40", pairedGame alice carol 40), ("game_20", restingGame)] ∧
    restingGame.Player1 = some alice ∧ restingGame.Player2 = some bob ∧
    restingGame.Moves = [] ∧ restingGame.State = ServerState.ServerGameSession ∧
    (handlePlayAgain aliceRejoined alice).sent = [(alice, startEvent), (carol, startEvent)] := by
  refine ⟨?_, by decide, by decide, by decide, by decide, by decide, by decide⟩
  refine ReachableVia.reorder _ ?_ (List.reverse_perm _)
  exact reachable_runOps NewServer
    [Op.findPartner alice 10, Op.findPartner bob 20, Op.moveSubmitted alice (moveEvent Rock),
     Op.moveSubmitted bob (moveEvent Scissors), Op.findPartner alice 30,
     Op.findPartner carol 40] ReachableVia.init

/-! ## The `State` field -/

theorem eraseState_idem (g : GameSession) : eraseState (eraseState g) = eraseState g := rfl

theorem findGame_erase (l : List (String × GameSession)) (id : String) :
    findGame (l.map (fun e => (e.1, eraseState e.2))) id =
      (findGame l id).map (fun e => (e.1, eraseState e.2)) := by
  induction l with
  | nil => rfl
  | cons hd tl ih =>
    simp only [findGame] at ih ⊢
    by_cases h : inGame hd.2 id = true
    · have h' : inGame (eraseState hd.2) id = true := h
      simp [List.find?_cons, h, h']
    · have h' : ¬ inGame (eraseState hd.2) id = true := h
      simp only [List.map_cons, List.find?_cons, h, h']
      exact ih

theorem storeGame_erase (l : List (String × GameSession)) (id : String) (v v' : GameSession)
    (hv : eraseState v = eraseState v') :
    (storeGame (l.map (fun e => (e.1, eraseState e.2))) id v).map
        (fun e => (e.1, eraseState e.2)) =
      (storeGame l id v').map (fun e => (e.1, eraseState e.2)) := by
  induction l with
  | nil => rfl
  | cons hd tl ih =>
    by_cases h : inGame hd.2 id = true
    · have h' : inGame (eraseState hd.2) id = true := h
      simp [storeGame, h, h', hv, eraseState_idem]
    · have h' : ¬ inGame (eraseState hd.2) id = true := h
      have hb : inGame hd.2 id = false := by simpa using h
      have hb' : inGame (eraseState hd.2) id = false := hb
      simp [storeGame, hb, hb', ih, eraseState_idem]

theorem mapSet_erase (l : List (String × GameSession)) (k : String) (v : GameSession) :
    (mapSet (l.map (fun e => (e.1, eraseState e.2))) k v).map
        (fun e => (e.1, eraseState e.2)) =
      (mapSet l k v).map (fun e => (e.1, eraseState e.2)) := by
  induction l with
  | nil => rfl
  | cons hd tl ih =>
    obtain ⟨k', g'⟩ := hd
    by_cases h : k' = k
    · simp [mapSet, h, eraseState_idem]
    · simp only [List.map_cons, mapSet, h, if_false, List.cons.injEq]
      first | exact ih | exact ⟨rfl, ih⟩

theorem mapDelete_erase (l : List (String × GameSession)) (k : String) :
    (mapDelete (l.map (fun e => (e.1, eraseState e.2))) k).map
        (fun e => (e.1, eraseState e.2)) =
      (mapDelete l k).map (fun e => (e.1, eraseState e.2)) := by
  induction l with
  | nil => rfl
  | cons hd tl ih =>
    simp only [mapDelete] at ih ⊢
    by_cases h : hd.1 = k
    · simp [List.filter_cons, h, ih]
    · simp [List.filter_cons, h, ih, eraseState_idem]

theorem eraseStates_eq {s t : Server} (hw : s.waitingPlayer = t.waitingPlayer)
    (hp : s.players = t.players)
    (hg : s.gameSessions.map (fun e => (e.1, eraseState e.2)) =
      t.gameSessions.map (fun e => (e.1, eraseState e.2))) :
    eraseStates s = eraseStates t := by
  cases s
  cases t
  simp_all [eraseStates]

theorem eraseStates_idem (s : Server) : eraseStates (eraseStates s) = eraseStates s := by
  simp [eraseStates, eraseState_idem]

/-- Running an operation on a registry with blanked `State` fields sends the
same events and leaves the same registry, up to `State` fields. -/
theorem run_eraseStates (s : Server) (op : Op) :
    (op.run (eraseStates s)).sent = (op.run s).sent ∧
    (op.run (eraseStates s)).fault = (op.run s).fault ∧
    eraseStates (op.run (eraseStates s)).server = eraseStates (op.run s).server := by
  cases op with
  | findPartner p now =>
    simp only [Op.run]
    cases hw : s.waitingPlayer with
    | none =>
      have hw' : (eraseStates s).waitingPlayer = none := hw
      rw [handleFindPartner_of_empty s p now hw, handleFindPartner_of_empty _ p now hw']
      exact ⟨rfl, rfl, eraseStates_eq rfl rfl (by simp [eraseStates, eraseState_idem])⟩
    | some w =>
      have hw' : (eraseStates s).waitingPlayer = some w := hw
      rw [handleFindPartner_of_waiting s w p now hw, handleFindPartner_of_waiting _ w p now hw']
      exact ⟨rfl, rfl, eraseStates_eq rfl rfl (mapSet_erase _ _ _)⟩
  | moveSubmitted p ev =>
    simp only [Op.run, handleMoveSubmitted]
    have hf := findGame_erase s.gameSessions p.ID
    cases hg : findGame s.gameSessions p.ID with
    | none =>
      rw [hg] at hf
      have hf' : findGame (eraseStates s).gameSessions p.ID = none := hf
      rw [hf']
      refine ⟨?_, ?_, ?_⟩ <;> first | rfl | trivial | exact eraseStates_idem s
    | some e =>
      obtain ⟨k, g⟩ := e
      rw [hg] at hf
      have hf' : findGame (eraseStates s).gameSessions p.ID = some (k, eraseState g) := hf
      rw [hf']
      simp only
      have hlen : (({ eraseState g with
          Moves := mapSet (eraseState g).Moves p.ID (decodeMoveData ev.Data) } :
            GameSession).Moves.length = 2) =
          (({ g with Moves := mapSet g.Moves p.ID (decodeMoveData ev.Data) } :
            GameSession).Moves.length = 2) := rfl
      by_cases h2 : (mapSet g.Moves p.ID (decodeMoveData ev.Data)).length = 2
      · have h2' : (mapSet (eraseState g).Moves p.ID (decodeMoveData ev.Data)).length = 2 := h2
        simp only [h2, h2', if_true]
        refine ⟨?_, ?_, ?_⟩ <;>
          first | rfl | trivial | exact eraseStates_eq rfl rfl (storeGame_erase _ _ _ _ rfl)
      · have h2' : ¬ (mapSet (eraseState g).Moves p.ID (decodeMoveData ev.Data)).length = 2 := h2
        simp only [h2, h2', if_false]
        refine ⟨?_, ?_, ?_⟩ <;>
          first | rfl | trivial | exact eraseStates_eq rfl rfl (storeGame_erase _ _ _ _ rfl)
  | playAgain p =>
    simp only [Op.run, handlePlayAgain]
    have hf := findGame_erase s.gameSessions p.ID
    cases hg : findGame s.gameSessions p.ID with
    | none =>
      rw [hg] at hf
      have hf' : findGame (eraseStates s).gameSessions p.ID = none := hf
      rw [hf']
      refine ⟨?_, ?_, ?_⟩ <;> first | rfl | trivial | exact eraseStates_idem s
    | some e =>
      obtain ⟨k, g⟩ := e
      rw [hg] at hf
      have hf' : findGame (eraseStates s).gameSessions p.ID = some (k, eraseState g) := hf
      rw [hf']
      obtain ⟨i, st, p1, p2, mv⟩ := g
      cases p1 <;> cases p2 <;>
        refine ⟨?_, ?_, ?_⟩ <;>
          first | rfl | trivial | exact eraseStates_eq rfl rfl (storeGame_erase _ _ _ _ rfl)
  | leaveGame p =>
    simp only [Op.run, handleLeaveGame]
    have hf := findGame_erase s.gameSessions p.ID
    refine ⟨trivial, trivial, ?_⟩
    cases hg : findGame s.gameSessions p.ID with
    | none =>
      rw [hg] at hf
      have hf' : findGame (eraseStates s).gameSessions p.ID = none := hf
      rw [hf']
      exact eraseStates_eq rfl rfl (by simp [eraseStates, eraseState_idem])
    | some e =>
      obtain ⟨k, g⟩ := e
      rw [hg] at hf
      have hf' : findGame (eraseStates s).gameSessions p.ID = some (k, eraseState g) := hf
      rw [hf']
      exact eraseStates_eq rfl rfl (mapDelete_erase _ _)

/-- C19 (amended). In the only live session of two members `A` and `B` with
different identifiers, left by a round resolution with `State` game_session and
an empty move mapping and with no `handlePlayAgain` since, `handleMoveSubmitted`
from `A` records `A`'s choice and sends nothing, and a following
`handleMoveSubmitted` from `B` resolves a further round: `game_results` are
sent to `A` and `B`, and no `start_game` is sent by either call.  No operation
reads the `State` field: on two registries that differ only in `State` fields
every operation sends the same events, faults alike, and leaves registries
that again differ only in `State` fields. -/
theorem moves_not_gated_by_state (s : Server) (key : String) (g : GameSession)
    (A B : Player) (a b : Move) (h1 : g.Player1 = some A) (h2 : g.Player2 = some B)
    (hAB : A.ID ≠ B.ID) (hstate : g.State = ServerState.ServerGameSession)
    (hmoves : g.Moves = []) (hsole : gamesOf s.gameSessions A B = [(key, g)]) :
    (handleMoveSubmitted s A (moveEvent a)).sent = [] ∧
    gamesOf (handleMoveSubmitted s A (moveEvent a)).server.gameSessions A B =
      [(key, { g with State := ServerState.ServerGameSession, Moves := [(A.ID, a)] })] ∧
    (∀ l, l.Perm (handleMoveSubmitted s A (moveEvent a)).server.gameSessions →
      (handleMoveSubmitted (reordered (handleMoveSubmitted s A (moveEvent a)).server l) B
          (moveEvent b)).sent = [(A, resultsEvent a b), (B, resultsEvent b a)] ∧
      gamesOf (handleMoveSubmitted (reordered (handleMoveSubmitted s A (moveEvent a)).server l) B
          (moveEvent b)).server.gameSessions A B =
        [(key, { g with Moves := [], State := ServerState.ServerGameSession })]) ∧
    ∀ (t t' : Server) (op : Op), eraseStates t = eraseStates t' →
      (op.run t).sent = (op.run t').sent ∧ (op.run t).fault = (op.run t').fault ∧
      eraseStates (op.run t).server = eraseStates (op.run t').server := by
  have hinA : inGame g A.ID = true := by simp [inGame, h1]
  have hlen1 : (mapSet g.Moves A.ID (decodeMoveData (moveEvent a).Data)).length ≠ 2 := by
    rw [hmoves, moves_first]; simp
  obtain ⟨r1, -, -, r4⟩ := submit_records s A B A key g (moveEvent a) hsole (Or.inl rfl) hinA
    hlen1
  rw [hmoves, moves_first] at r4
  refine ⟨r1, ?_, ?_, ?_⟩
  · rw [r4]
    obtain ⟨i, st, p1, p2, mv⟩ := g
    simp only at hstate
    rw [hstate]
  · intro l hp
    obtain ⟨-, -, e3, -, e5⟩ := submit_pair s key g A B A B a b h1 h2 hAB (Or.inl rfl)
      (Or.inr rfl) hmoves hsole l hp
    have hg := mapGet_pair A B a b hAB
    rw [hg.1, hg.2] at e3
    exact ⟨e3, e5⟩
  · intro t t' op ht
    obtain ⟨a1, a2, a3⟩ := run_eraseStates t op
    obtain ⟨b1, b2, b3⟩ := run_eraseStates t' op
    rw [ht] at a1 a2 a3
    exact ⟨a1.symm.trans b1, a2.symm.trans b2, a3.symm.trans b3⟩

/-- C19 after the round of alice and bob, without `play_again`: alice's paper is
recorded and bob's rock resolves a second round. -/
theorem moves_not_gated_by_state_witness :
    restingGame.Player1 = some alice ∧ restingGame.Player2 = some bob ∧ alice.ID ≠ bob.ID ∧
    restingGame.State = ServerState.ServerGameSession ∧ restingGame.Moves = [] ∧
    gamesOf roundPlayed.gameSessions alice bob = [("game_20", restingGame)] ∧
    (handleMoveSubmitted
        (reordered (handleMoveSubmitted roundPlayed alice (moveEvent Paper)).server
          (handleMoveSubmitted roundPlayed alice (moveEvent Paper)).server.gameSessions)
        bob (moveEvent Rock)).sent =
      [(alice, resultsEvent Paper Rock), (bob, resultsEvent Rock Paper)] :=
  ⟨by decide, by decide, by decide, by decide, by decide, by decide,
   ((moves_not_gated_by_state roundPlayed "game_20" restingGame alice bob Paper Rock (by decide)
      (by decide) (by decide) (by decide) (by decide) (by decide)).2.2.1 _
      (List.Perm.refl _)).1⟩

/-- C19 as stated fails. After a round in `game_20` alice was also paired with
carol in `game_40`; in the reachable registry where the session map presents
`game_40` first, alice's move is recorded in `game_40` and not in the just
resolved `game_20`, and bob's following move resolves no round: no
`game_results` is sent. -/
theorem second_round_lost_with_shared_member :
    Reachable aliceRejoined ∧
    aliceRejoined.gameSessions =
      [("game_40", pairedGame alice carol 40), ("game_20", restingGame)] ∧
    restingGame.State = ServerState.ServerGameSession ∧ restingGame.Moves = [] ∧
    (handleMoveSubmitted aliceRejoined alice (moveEvent Paper)).server.gameSessions =
      [("game_40", { pairedGame alice carol 40 with Moves := [("player_1", "paper")] }),
       ("game_20", restingGame)] ∧
    (handleMoveSubmitted (handleMoveSubmitted aliceRejoined alice (moveEvent Paper)).server bob
        (moveEvent Rock)).sent = [] := by
  refine ⟨?_, by decide, by decide, by decide, by decide, by decide⟩
  refine ReachableVia.reorder _ ?_ (List.reverse_perm _)
  exact reachable_runOps NewServer
    [Op.findPartner alice 10, Op.findPartner bob 20, Op.moveSubmitted alice (moveEvent Rock),
     Op.moveSubmitted bob (moveEvent Scissors), Op.findPartner alice 30,
     Op.findPartner carol 40] ReachableVia.init

end RPS
